import Mathlib

/-!
Verification development for the X.509 KeyInfo clause (`src/key/x509_data.ts`) and the
algorithm abstraction (`src/algorithm.ts`) of this repository.

The TypeScript source is shallowly embedded: the `KeyInfoX509Data` class becomes a
structure with explicit state passing, DOM elements become an inductive tree, JS `null`
or `undefined` become `Option`, and a method that can throw returns its outcome
together with the post state.  External collaborators (the base64/text codec, the
XML-building capability, the opaque certificate object, the crypto provider) are not
part of `src/`; they are modelled from the spec, and each such definition carries a
doc comment saying so.
-/

namespace XmlDsig

/-- Bytes of a JS `Uint8Array`.  Every entry of a real `Uint8Array` is below 256; the
bound is carried as an explicit hypothesis (`ValidBytes`) where a proof needs it. -/
abbrev Bytes := List Nat

/-- Every entry of the byte list is a real byte (< 256), as `Uint8Array` guarantees. -/
def ValidBytes (b : Bytes) : Prop := ∀ x ∈ b, x < 256

instance (b : Bytes) : Decidable (ValidBytes b) :=
  inferInstanceAs (Decidable (∀ x ∈ b, x < 256))

/-! ## Base64 codec

Modelled from the spec, which lists among the consumed external interfaces:
"Codec: base64 encode/decode; UTF-8 text to bytes; binary-safe (Latin-1-style)
text to bytes" (`xmljs`'s `Convert`, not part of `src/`). -/

/-- The standard base64 alphabet, in value order. -/
def base64Alphabet : List Char :=
  "ABCDEFGHIJKLMNOPQRSTUVWXYZabcdefghijklmnopqrstuvwxyz0123456789+/".data

/-- Character of a 6-bit value. -/
def valToChar (v : Nat) : Char := base64Alphabet.getD v 'A'

/-- Index of a character in a character list. -/
def charIndexIn : List Char → Char → Option Nat
  | [], _ => none
  | a :: rest, c => if a = c then some 0 else (charIndexIn rest c).map (· + 1)

/-- 6-bit value of a base64 character. -/
def charToVal (c : Char) : Option Nat := charIndexIn base64Alphabet c

/-- Encode a byte list three bytes at a time into base64 characters, padding with
`=` as usual. -/
def encodeChunks : Bytes → List Char
  | [] => []
  | [a] => [valToChar (a / 4), valToChar (a % 4 * 16), '=', '=']
  | [a, b] => [valToChar (a / 4), valToChar (a % 4 * 16 + b / 16), valToChar (b % 16 * 4), '=']
  | a :: b :: d :: rest =>
      valToChar (a / 4) :: valToChar (a % 4 * 16 + b / 16) ::
        valToChar (b % 16 * 4 + d / 64) :: valToChar (d % 64) :: encodeChunks rest

/-- Decode base64 characters four at a time; `=` padding is accepted only at the end. -/
def decodeChunks : List Char → Option Bytes
  | [] => some []
  | c1 :: c2 :: c3 :: c4 :: rest =>
      match charToVal c1, charToVal c2 with
      | some v1, some v2 =>
          if c3 = '=' then
            if c4 = '=' ∧ rest = [] then some [v1 * 4 + v2 / 16] else none
          else
            match charToVal c3 with
            | some v3 =>
                if c4 = '=' then
                  if rest = [] then some [v1 * 4 + v2 / 16, v2 % 16 * 16 + v3 / 4] else none
                else
                  match charToVal c4 with
                  | some v4 =>
                      (decodeChunks rest).map
                        (fun bs =>
                          (v1 * 4 + v2 / 16) :: (v2 % 16 * 16 + v3 / 4) :: (v3 % 4 * 64 + v4) :: bs)
                  | none => none
            | none => none
      | _, _ => none
  | _ => some []

/-- Modelled from the spec: the external codec's base64 encoder (`Convert.ToBase64`). -/
def Convert.ToBase64 (b : Bytes) : String := String.mk (encodeChunks b)

/-- Modelled from the spec: the external codec's base64 decoder (`Convert.FromBase64`).
Its behaviour on text that is not base64 is not relied on anywhere; we return the
empty byte list there. -/
def Convert.FromBase64 (s : String) : Bytes := (decodeChunks s.data).getD []

/-- UTF-8 bytes of one Unicode scalar value. -/
def utf8Bytes (c : Char) : Bytes :=
  let n := c.toNat
  if n < 0x80 then [n]
  else if n < 0x800 then [0xC0 + n / 64, 0x80 + n % 64]
  else if n < 0x10000 then [0xE0 + n / 4096, 0x80 + n / 64 % 64, 0x80 + n % 64]
  else [0xF0 + n / 262144, 0x80 + n / 4096 % 64, 0x80 + n / 64 % 64, 0x80 + n % 64]

/-- Modelled from the spec: `Convert.FromString(s, "utf8")`, the external codec's
UTF-8 text-to-bytes conversion. -/
def Convert.FromStringUtf8 (s : String) : Bytes := (s.data.map utf8Bytes).flatten

/-- Modelled from the spec: `Convert.FromString(s, "binary")`, the external codec's
binary-safe (Latin-1-style, one byte per code unit) text-to-bytes conversion.
Strings are modelled as sequences of Unicode scalar values; below `0x10000` these
coincide with UTF-16 code units. -/
def Convert.FromStringBinary (s : String) : Bytes := s.data.map (fun c => c.toNat % 256)

/-! ## XML model

Modelled from the spec: the external "XML-building capability: create
document/element (namespace-qualified), set/read element text, enumerate matching
children by local name and namespace".  An element carries its local name, its
namespace URI, its text content (the DOM turns a `null` assignment into the empty
string) and its child elements; namespace prefixes do not affect local names and are
not modelled. -/
inductive XmlEl where
  | mk (localName : String) (namespaceURI : String) (textContent : String)
      (children : List XmlEl)

def XmlEl.localName : XmlEl → String
  | .mk n _ _ _ => n

def XmlEl.namespaceURI : XmlEl → String
  | .mk _ ns _ _ => ns

def XmlEl.textContent : XmlEl → String
  | .mk _ _ t _ => t

def XmlEl.children : XmlEl → List XmlEl
  | .mk _ _ _ cs => cs

namespace XmlSignature

/-- Modelled from the spec: the fixed XML-DSig namespace of every produced element. -/
def NamespaceURI : String := "http://www.w3.org/2000/09/xmldsig#"

namespace ElementNames

/-- Element names of the `<X509Data>` subtree, as the spec's wire format lists them. -/
def X509Data : String := "X509Data"

def X509IssuerSerial : String := "X509IssuerSerial"

def X509IssuerName : String := "X509IssuerName"

def X509SerialNumber : String := "X509SerialNumber"

def X509SKI : String := "X509SKI"

def X509SubjectName : String := "X509SubjectName"

def X509Certificate : String := "X509Certificate"

def X509CRL : String := "X509CRL"

end ElementNames

end XmlSignature

/-- Modelled from the spec: enumerate the children of an element matching a local
name inside the signature namespace (`GetChildren` of the XML base object). -/
def GetChildren (element : XmlEl) (name : String) : List XmlEl :=
  element.children.filter
    (fun c => c.localName = name && c.namespaceURI = XmlSignature.NamespaceURI)

/-- Modelled from the spec: fetch the first matching child, or nothing.  The spec
makes the parse permissive — "a malformed repeated-group entry (e.g., an
issuer/serial pair missing one of its two children) is dropped silently rather than
aborting the entire parse" — so a missing child is reported as `none`, never as a
failure. -/
def GetChild (element : XmlEl) (name : String) : Option XmlEl :=
  (GetChildren element name).head?

/-- Decidable equality of call outcomes, used to evaluate the embedding on
concrete inputs. -/
instance {ε α : Type} [DecidableEq ε] [DecidableEq α] : DecidableEq (Except ε α) :=
  fun x y =>
    match x, y with
    | .ok a, .ok b =>
        if h : a = b then .isTrue (by subst h; rfl)
        else .isFalse (fun hh => by cases hh; exact h rfl)
    | .ok _, .error _ => .isFalse (fun hh => by cases hh)
    | .error _, .ok _ => .isFalse (fun hh => by cases hh)
    | .error e, .error f =>
        if h : e = f then .isTrue (by subst h; rfl)
        else .isFalse (fun hh => by cases hh; exact h rfl)

/-! ## Errors -/

/-- The `XmlError` conditions raised by the embedded code (`XE.PARAM_REQUIRED`,
`XE.METHOD_NOT_SUPPORTED`, `XE.METHOD_NOT_IMPLEMENTED`) plus the base-class parse
failure on an unexpected element, modelled from the spec. -/
inductive XmlError where
  | paramRequired (param : String)
  | methodNotSupported
  | methodNotImplemented
  | wrongElement (localName : String)
  deriving DecidableEq

/-! ## The certificate collaborator and the crypto provider -/

/-- Modelled from the spec: the "opaque certificate object (external): raw encoded
bytes + asynchronous key-export".  `rawData` is what `GetRawCertData()` returns; the
constructor `new X509Certificate(bytes)` stores the given bytes. -/
structure X509Certificate where
  rawData : Bytes
  deriving DecidableEq

/-- Raw DER bytes of the certificate (`GetRawCertData`), modelled from the spec. -/
def X509Certificate.GetRawCertData (self : X509Certificate) : Bytes := self.rawData

/-- Modelled from the spec: a WebCrypto `Algorithm` descriptor, opaque to this core
beyond its identity. -/
structure AlgId where
  name : String
  deriving DecidableEq

/-- Modelled from the spec: an opaque `CryptoKey` handle held by the external
provider. -/
structure CryptoKey where
  id : Nat
  deriving DecidableEq

/-- A JS error surfaced through a rejected promise: either the `TypeError` thrown
when a property of `undefined` is read, or an opaque failure propagated from the
certificate collaborator or crypto provider. -/
inductive JsErr where
  | typeError
  | providerFailure (message : String)
  deriving DecidableEq

/-! ## KeyInfoX509Data state

The class fields of `KeyInfoX509Data` (`src/key/x509_data.ts`, lines 27-32).
`IssuerSerialList`, `SubjectNameList` and `X509CertificateList` are declared without
an initializer, so they hold `undefined` (here `none`) until first written;
`SubjectKeyIdList` is initialized to an empty array and always holds an array;
`x509crl` and `key` are initialized to `null`. -/

/-- The `X509IssuerSerial` interface.  `serialNumber` is typed `string` in the
source but the code never checks it, so at runtime it can be `null`/`undefined`
(modelled as `none`). -/
structure X509IssuerSerial where
  issuerName : String
  serialNumber : Option String
  deriving DecidableEq

structure KeyInfoX509Data where
  x509crl : Option Bytes := none
  IssuerSerialList : Option (List X509IssuerSerial) := none
  SubjectKeyIdList : List Bytes := []
  SubjectNameList : Option (List String) := none
  X509CertificateList : Option (List X509Certificate) := none
  key : Option CryptoKey := none
  deriving DecidableEq

/-- A `new KeyInfoX509Data()` instance (the no-argument constructor). -/
def KeyInfoX509Data.fresh : KeyInfoX509Data := {}

namespace KeyInfoX509Data

/-- Getter `Certificates` (returns the backing array, which may be `undefined`). -/
def Certificates (self : KeyInfoX509Data) : Option (List X509Certificate) :=
  self.X509CertificateList

/-- Getter `CRL`. -/
def CRL (self : KeyInfoX509Data) : Option Bytes := self.x509crl

/-- Setter `CRL`. -/
def setCRL (self : KeyInfoX509Data) (value : Option Bytes) : KeyInfoX509Data :=
  { self with x509crl := value }

/-- Getter `IssuerSerials` (may be `undefined`). -/
def IssuerSerials (self : KeyInfoX509Data) : Option (List X509IssuerSerial) :=
  self.IssuerSerialList

/-- Getter `SubjectKeyIds`. -/
def SubjectKeyIds (self : KeyInfoX509Data) : List Bytes := self.SubjectKeyIdList

/-- Getter `SubjectNames` (may be `undefined`). -/
def SubjectNames (self : KeyInfoX509Data) : Option (List String) := self.SubjectNameList

/-- Getter `Key`. -/
def Key (self : KeyInfoX509Data) : Option CryptoKey := self.key

/-- `importKey` always rejects with `METHOD_NOT_SUPPORTED`. -/
def importKey (_self : KeyInfoX509Data) (_key : CryptoKey) : Except XmlError CryptoKey :=
  .error .methodNotSupported

/-- The `exportKey` method.  `certExport` is the external certificate
collaborator's key export (a future, modelled as the settlement it would reach).
The returned `Option` is the settlement of the promise `exportKey` builds:
`none` means the promise never settles (the executor runs to completion without
calling `resolve` or `reject`), `some (.error e)` a rejection, `some (.ok k)` a
resolution. -/
def exportKey (self : KeyInfoX509Data) (alg : AlgId)
    (certExport : X509Certificate → AlgId → Except JsErr CryptoKey) :
    Option (Except JsErr CryptoKey) :=
  match self.X509CertificateList with
  | none =>
      -- the getter `Certificates` returns `undefined`; reading `.length` throws a
      -- TypeError inside the executor, which rejects the promise
      some (.error .typeError)
  | some [] =>
      -- `if (this.Certificates.length)` is false and the executor finishes with
      -- neither `resolve` nor `reject` called: the promise never settles
      none
  | some (c :: _) =>
      -- `this.Certificates[0].exportKey(alg).then(resolve, reject)` passes the
      -- settlement of the first certificate's export through unchanged
      some (certExport c alg)

/-- `AddCertificate` (lines 134-140).  The result pairs the outcome of the call
(a throw aborts the method) with the post state; the null check precedes every
write, so a throw leaves the state untouched. -/
def AddCertificate (self : KeyInfoX509Data) (certificate : Option X509Certificate) :
    Except XmlError Unit × KeyInfoX509Data :=
  match certificate with
  | none => (.error (.paramRequired "certificate"), self)
  | some cert =>
      -- `if (this.X509CertificateList == null) this.X509CertificateList = [];` then push
      (.ok (),
        { self with X509CertificateList := some (self.X509CertificateList.getD [] ++ [cert]) })

/-- `AddIssuerSerial` (lines 148-156).  Only `issuerName` is checked; `serialNumber`
is stored as given. -/
def AddIssuerSerial (self : KeyInfoX509Data) (issuerName : Option String)
    (serialNumber : Option String) : Except XmlError Unit × KeyInfoX509Data :=
  match issuerName with
  | none => (.error (.paramRequired "issuerName"), self)
  | some name =>
      (.ok (),
        { self with
          IssuerSerialList := some (self.IssuerSerialList.getD [] ++ [⟨name, serialNumber⟩]) })

/-- The overloaded `string | Uint8Array` argument of `AddSubjectKeyId`. -/
inductive StringOrBytes where
  | str (s : String)
  | bytes (b : Bytes)
  deriving DecidableEq

/-- `AddSubjectKeyId` (lines 163-180).  The guard `if (this.SubjectKeyIdList)
this.SubjectKeyIdList = [];` always fires: the field is initialized to an array and
a JS array (even empty) is truthy, so the list is reset on every call before the
new entry is pushed.  A string argument is base64-decoded first (the inner
`subjectKeyId != null` test is always true inside the `typeof === "string"`
branch). -/
def AddSubjectKeyId (self : KeyInfoX509Data) (subjectKeyId : StringOrBytes) :
    KeyInfoX509Data :=
  match subjectKeyId with
  | .str s => { self with SubjectKeyIdList := [Convert.FromBase64 s] }
  | .bytes b => { self with SubjectKeyIdList := [b] }

/-- `AddSubjectName` (lines 187-192). -/
def AddSubjectName (self : KeyInfoX509Data) (subjectName : String) : KeyInfoX509Data :=
  { self with SubjectNameList := some (self.SubjectNameList.getD [] ++ [subjectName]) }

/-! ### GetXml (lines 198-248)

`GetXml` appends children to the freshly created `<X509Data>` element group by
group; one helper per commented section of the source.  A parent element's own
`textContent` is left empty (nothing in the embedded code reads it). -/

/-- One `<X509IssuerSerial>` child (lines 207-214): an `<X509IssuerName>` and an
`<X509SerialNumber>` text child.  Assigning `null` to `textContent` stores the
empty string, per the DOM. -/
def iserEl (iser : X509IssuerSerial) : XmlEl :=
  .mk XmlSignature.ElementNames.X509IssuerSerial XmlSignature.NamespaceURI ""
    [.mk XmlSignature.ElementNames.X509IssuerName XmlSignature.NamespaceURI
        iser.issuerName [],
      .mk XmlSignature.ElementNames.X509SerialNumber XmlSignature.NamespaceURI
        (iser.serialNumber.getD "") []]

def iserEls (self : KeyInfoX509Data) : List XmlEl :=
  (self.IssuerSerialList.getD []).map iserEl

/-- One `<X509SKI>` child, base64 text (lines 219-223). -/
def skiEl (skid : Bytes) : XmlEl :=
  .mk XmlSignature.ElementNames.X509SKI XmlSignature.NamespaceURI
    (Convert.ToBase64 skid) []

def skiEls (self : KeyInfoX509Data) : List XmlEl := self.SubjectKeyIdList.map skiEl

/-- One `<X509SubjectName>` child, plain text (lines 227-231). -/
def subjectNameEl (subject : String) : XmlEl :=
  .mk XmlSignature.ElementNames.X509SubjectName XmlSignature.NamespaceURI subject []

def subjectNameEls (self : KeyInfoX509Data) : List XmlEl :=
  (self.SubjectNameList.getD []).map subjectNameEl

/-- One `<X509Certificate>` child, base64 of the raw certificate data
(lines 235-239). -/
def certEl (x509 : X509Certificate) : XmlEl :=
  .mk XmlSignature.ElementNames.X509Certificate XmlSignature.NamespaceURI
    (Convert.ToBase64 x509.GetRawCertData) []

def certEls (self : KeyInfoX509Data) : List XmlEl :=
  (self.X509CertificateList.getD []).map certEl

/-- The lone `<X509CRL>` child, when a CRL is set (lines 242-246). -/
def crlEl (crl : Bytes) : XmlEl :=
  .mk XmlSignature.ElementNames.X509CRL XmlSignature.NamespaceURI
    (Convert.ToBase64 crl) []

def crlEls (self : KeyInfoX509Data) : List XmlEl :=
  match self.x509crl with
  | none => []
  | some crl => [crlEl crl]

/-- `GetXml` (lines 198-248): builds the `<X509Data>` element and appends the
issuer/serial, SKI, subject-name, certificate and CRL children, in that order. -/
def GetXml (self : KeyInfoX509Data) : XmlEl :=
  .mk XmlSignature.ElementNames.X509Data XmlSignature.NamespaceURI ""
    (iserEls self ++ skiEls self ++ subjectNameEls self ++ certEls self ++ crlEls self)

/-! ### LoadXml (lines 255-311) -/

/-- A JS method call inside another method: a thrown error aborts the caller too,
a normal return hands back the mutated state. -/
def runThrow : Except XmlError Unit × KeyInfoX509Data → Except XmlError KeyInfoX509Data
  | (.ok _, st) => .ok st
  | (.error e, _) => .error e

/-- One iteration of the `<X509IssuerSerial>` loop (lines 271-276): fetch the two
sub-children, and only when both exist with non-empty text add the pair; otherwise
the entry is skipped. -/
def loadOneIssuerSerial (self : KeyInfoX509Data) (xel : XmlEl) :
    Except XmlError KeyInfoX509Data :=
  match GetChild xel XmlSignature.ElementNames.X509IssuerName,
      GetChild xel XmlSignature.ElementNames.X509SerialNumber with
  | some issuer, some serial =>
      if issuer.textContent ≠ "" ∧ serial.textContent ≠ "" then
        runThrow (self.AddIssuerSerial (some issuer.textContent) (some serial.textContent))
      else pure self
  | _, _ => pure self

def loadIssuerSerials (self : KeyInfoX509Data) (element : XmlEl) :
    Except XmlError KeyInfoX509Data :=
  (GetChildren element XmlSignature.ElementNames.X509IssuerSerial).foldlM
    loadOneIssuerSerial self

/-- One iteration of the `<X509SKI>` loop (lines 281-285). -/
def loadOneSKI (self : KeyInfoX509Data) (xel : XmlEl) : KeyInfoX509Data :=
  if xel.textContent ≠ "" then
    self.AddSubjectKeyId (.bytes (Convert.FromBase64 xel.textContent))
  else self

def loadSKIs (self : KeyInfoX509Data) (element : XmlEl) : KeyInfoX509Data :=
  (GetChildren element XmlSignature.ElementNames.X509SKI).foldl loadOneSKI self

/-- One iteration of the `<X509SubjectName>` loop (lines 291-294). -/
def loadOneSubjectName (self : KeyInfoX509Data) (xel : XmlEl) : KeyInfoX509Data :=
  if xel.textContent ≠ "" then self.AddSubjectName xel.textContent else self

def loadSubjectNames (self : KeyInfoX509Data) (element : XmlEl) : KeyInfoX509Data :=
  (GetChildren element XmlSignature.ElementNames.X509SubjectName).foldl
    loadOneSubjectName self

/-- One iteration of the `<X509Certificate>` loop (lines 299-304). -/
def loadOneCertificate (self : KeyInfoX509Data) (xel : XmlEl) :
    Except XmlError KeyInfoX509Data :=
  if xel.textContent ≠ "" then
    runThrow (self.AddCertificate (some ⟨Convert.FromBase64 xel.textContent⟩))
  else pure self

def loadCertificates (self : KeyInfoX509Data) (element : XmlEl) :
    Except XmlError KeyInfoX509Data :=
  (GetChildren element XmlSignature.ElementNames.X509Certificate).foldlM
    loadOneCertificate self

/-- The `<X509CRL>` step (lines 307-310): first matching child, taken only with
non-empty text. -/
def loadCRL (self : KeyInfoX509Data) (element : XmlEl) : KeyInfoX509Data :=
  match GetChild element XmlSignature.ElementNames.X509CRL with
  | some x509el =>
      if x509el.textContent ≠ "" then
        { self with x509crl := some (Convert.FromBase64 x509el.textContent) }
      else self
  | none => self

/-- The reset prologue of `LoadXml` (lines 258-266): each lazily allocated list is
replaced by a fresh empty array only when it already holds an array (`undefined` is
falsy, an array — even empty — is truthy); `SubjectKeyIdList` always holds an array
and is always reset; the CRL is cleared unconditionally. -/
def resetLists (self : KeyInfoX509Data) : KeyInfoX509Data :=
  { self with
    IssuerSerialList := self.IssuerSerialList.map (fun _ => [])
    SubjectKeyIdList := []
    SubjectNameList := self.SubjectNameList.map (fun _ => [])
    X509CertificateList := self.X509CertificateList.map (fun _ => [])
    x509crl := none }

/-- `LoadXml` (lines 255-311).  `super.LoadXml(element)` is modelled from the spec:
the base class checks that the given element is the expected `<X509Data>` of the
signature namespace and fails otherwise, without touching the X.509 state.  Then the
collections are reset and repopulated group by group through the `Add*` methods. -/
def LoadXml (self : KeyInfoX509Data) (element : XmlEl) :
    Except XmlError KeyInfoX509Data :=
  if element.localName = XmlSignature.ElementNames.X509Data ∧
      element.namespaceURI = XmlSignature.NamespaceURI then do
    let s := resetLists self
    let s ← loadIssuerSerials s element
    let s := loadSKIs s element
    let s := loadSubjectNames s element
    let s ← loadCertificates s element
    pure (loadCRL s element)
  else .error (.wrongElement element.localName)

end KeyInfoX509Data

/-! ## Algorithm abstraction (`src/algorithm.ts`)

`XmlAlgorithm` carries the identity; `HashAlgorithm` and `SignatureAlgorithm` are
stateless method bundles over it.  The external provider's asynchronous primitives
are modelled by recording the exact invocation the method hands to the provider. -/

structure XmlAlgorithm where
  algorithm : AlgId
  xmlNamespace : String
  deriving DecidableEq

def XmlAlgorithm.getAlgorithmName (self : XmlAlgorithm) : String := self.xmlNamespace

/-- The `Uint8Array | string | Node` argument of `getHash`. -/
inductive HashInput where
  | str (s : String)
  | bytes (b : Bytes)
  | node (n : XmlEl)

/-- The invocation `Application.crypto.subtle.digest(algorithm, buf)` hands to the
external provider. -/
structure DigestCall where
  algorithm : AlgId
  data : Bytes
  deriving DecidableEq

/-- `HashAlgorithm.getHash` (lines 29-46): text is UTF-8 encoded, raw bytes pass
through, a node goes through the external `XMLSerializer` (modelled from the spec
as the `serialize` argument) and is then UTF-8 encoded; the provider's digest is
invoked with this algorithm's own parameters. -/
def HashAlgorithm.getHash (self : XmlAlgorithm) (serialize : XmlEl → String)
    (xml : HashInput) : DigestCall :=
  match xml with
  | .str s => { algorithm := self.algorithm, data := Convert.FromStringUtf8 s }
  | .bytes b => { algorithm := self.algorithm, data := b }
  | .node n =>
      { algorithm := self.algorithm, data := Convert.FromStringUtf8 (serialize n) }

/-- The invocation `Application.crypto.subtle.sign(algorithm, key, data)` hands to
the external provider. -/
structure SignCall where
  algorithm : AlgId
  key : CryptoKey
  data : Bytes
  deriving DecidableEq

/-- The invocation `Application.crypto.subtle.verify(algorithm, key, signatureBytes,
data)` hands to the external provider. -/
structure VerifyCall where
  algorithm : AlgId
  key : CryptoKey
  signatureBytes : Bytes
  data : Bytes
  deriving DecidableEq

/-- `SignatureAlgorithm.getSignature` (lines 62-64): the signed-info text is encoded
with the binary-safe encoding and signed with the caller-supplied algorithm. -/
def SignatureAlgorithm.getSignature (_self : XmlAlgorithm) (signedInfo : String)
    (signingKey : CryptoKey) (algorithm : AlgId) : SignCall :=
  { algorithm := algorithm, key := signingKey
    data := Convert.FromStringBinary signedInfo }

/-- `SignatureAlgorithm.verifySignature` (lines 69-75): the signature value is
decoded with the binary-safe encoding, the signed-info text is encoded with UTF-8,
and a missing algorithm argument falls back to this algorithm's own identity
(`algorithm || this.algorithm`; an object is always truthy). -/
def SignatureAlgorithm.verifySignature (self : XmlAlgorithm) (signedInfo : String)
    (key : CryptoKey) (signatureValue : String) (algorithm : Option AlgId) :
    VerifyCall :=
  { algorithm := algorithm.getD self.algorithm, key := key
    signatureBytes := Convert.FromStringBinary signatureValue
    data := Convert.FromStringUtf8 signedInfo }

/-! ## Lemmas about the base64 codec -/

theorem charToVal_valToChar {v : Nat} (h : v < 64) : charToVal (valToChar v) = some v := by
  have key : ∀ w : Fin 64, charToVal (valToChar w.val) = some w.val := by decide
  exact key ⟨v, h⟩

theorem valToChar_ne_pad {v : Nat} (h : v < 64) : valToChar v ≠ '=' := by
  have key : ∀ w : Fin 64, valToChar w.val ≠ '=' := by decide
  exact key ⟨v, h⟩

theorem charIndexIn_lt_length :
    ∀ (l : List Char) (c : Char) (v : Nat), charIndexIn l c = some v → v < l.length
  | [], _, _, h => by simp [charIndexIn] at h
  | a :: rest, c, v, h => by
      by_cases hac : a = c
      · rw [charIndexIn, if_pos hac] at h
        cases h
        simp only [List.length_cons]
        omega
      · rw [charIndexIn, if_neg hac] at h
        cases hu : charIndexIn rest c with
        | none => rw [hu] at h; cases h
        | some u =>
          rw [hu] at h
          simp only [Option.map_some', Option.some.injEq] at h
          have := charIndexIn_lt_length rest c u hu
          simp only [List.length_cons]
          omega

theorem charToVal_lt {c : Char} {v : Nat} (h : charToVal c = some v) : v < 64 := by
  have := charIndexIn_lt_length base64Alphabet c v h
  simpa [base64Alphabet] using this

/-- Reduction of the decoder on a chunk with no padding. -/
theorem decodeChunks_cons4 {c1 c2 c3 c4 : Char} {v1 v2 v3 v4 : Nat} (rest : List Char)
    (h1 : charToVal c1 = some v1) (h2 : charToVal c2 = some v2)
    (h3 : charToVal c3 = some v3) (h4 : charToVal c4 = some v4)
    (hc3 : c3 ≠ '=') (hc4 : c4 ≠ '=') :
    decodeChunks (c1 :: c2 :: c3 :: c4 :: rest) =
      (decodeChunks rest).map
        (fun bs => (v1 * 4 + v2 / 16) :: (v2 % 16 * 16 + v3 / 4) :: (v3 % 4 * 64 + v4) :: bs) := by
  simp [decodeChunks, h1, h2, h3, h4, hc3, hc4]

/-- Reduction of the decoder on a final chunk carrying two padding characters. -/
theorem decodeChunks_pad2 {c1 c2 : Char} {v1 v2 : Nat}
    (h1 : charToVal c1 = some v1) (h2 : charToVal c2 = some v2) :
    decodeChunks [c1, c2, '=', '='] = some [v1 * 4 + v2 / 16] := by
  simp [decodeChunks, h1, h2]

/-- Reduction of the decoder on a final chunk carrying one padding character. -/
theorem decodeChunks_pad1 {c1 c2 c3 : Char} {v1 v2 v3 : Nat}
    (h1 : charToVal c1 = some v1) (h2 : charToVal c2 = some v2)
    (h3 : charToVal c3 = some v3) (hc3 : c3 ≠ '=') :
    decodeChunks [c1, c2, c3, '='] = some [v1 * 4 + v2 / 16, v2 % 16 * 16 + v3 / 4] := by
  simp [decodeChunks, h1, h2, h3, hc3]

/-- Decoding inverts encoding on genuine byte lists. -/
theorem decodeChunks_encodeChunks :
    ∀ (b : Bytes), ValidBytes b → decodeChunks (encodeChunks b) = some b
  | [], _ => rfl
  | [a], h => by
      have ha : a < 256 := h a (by simp)
      have h1 := charToVal_valToChar (v := a / 4) (by omega)
      have h2 := charToVal_valToChar (v := a % 4 * 16) (by omega)
      rw [encodeChunks, decodeChunks_pad2 h1 h2]
      have e1 : ∀ x y : Nat, x = a / 4 → y = a % 4 * 16 → x * 4 + y / 16 = a := by
        intro x y hx hy
        omega
      rw [e1 (a / 4) (a % 4 * 16) rfl rfl]
  | [a, b], h => by
      have ha : a < 256 := h a (by simp)
      have hb : b < 256 := h b (by simp)
      have h1 := charToVal_valToChar (v := a / 4) (by omega)
      have h2 := charToVal_valToChar (v := a % 4 * 16 + b / 16) (by omega)
      have h3 := charToVal_valToChar (v := b % 16 * 4) (by omega)
      rw [encodeChunks, decodeChunks_pad1 h1 h2 h3 (valToChar_ne_pad (by omega))]
      have e1 : ∀ x y : Nat, x = a / 4 → y = a % 4 * 16 + b / 16 → x * 4 + y / 16 = a := by
        intro x y hx hy
        omega
      have e2 : ∀ y z : Nat, y = a % 4 * 16 + b / 16 → z = b % 16 * 4 →
          y % 16 * 16 + z / 4 = b := by
        intro y z hy hz
        omega
      rw [e1 _ _ rfl rfl, e2 _ _ rfl rfl]
  | a :: b :: d :: rest, h => by
      have ha : a < 256 := h a (by simp)
      have hb : b < 256 := h b (by simp)
      have hd : d < 256 := h d (by simp)
      have ih := decodeChunks_encodeChunks rest (fun x hx => h x (by simp [hx]))
      have h1 := charToVal_valToChar (v := a / 4) (by omega)
      have h2 := charToVal_valToChar (v := a % 4 * 16 + b / 16) (by omega)
      have h3 := charToVal_valToChar (v := b % 16 * 4 + d / 64) (by omega)
      have h4 := charToVal_valToChar (v := d % 64) (by omega)
      rw [encodeChunks, decodeChunks_cons4 (encodeChunks rest) h1 h2 h3 h4
        (valToChar_ne_pad (by omega)) (valToChar_ne_pad (by omega)), ih]
      simp only [Option.map_some']
      have e1 : ∀ x y : Nat, x = a / 4 → y = a % 4 * 16 + b / 16 → x * 4 + y / 16 = a := by
        intro x y hx hy
        omega
      have e2 : ∀ y z : Nat, y = a % 4 * 16 + b / 16 → z = b % 16 * 4 + d / 64 →
          y % 16 * 16 + z / 4 = b := by
        intro y z hy hz
        omega
      have e3 : ∀ z w : Nat, z = b % 16 * 4 + d / 64 → w = d % 64 →
          z % 4 * 64 + w = d := by
        intro z w hz hw
        omega
      rw [e1 _ _ rfl rfl, e2 _ _ rfl rfl, e3 _ _ rfl rfl]

/-- The base64 round trip of the external codec, at the `Convert` interface. -/
theorem fromBase64_toBase64 {b : Bytes} (h : ValidBytes b) :
    Convert.FromBase64 (Convert.ToBase64 b) = b := by
  show (decodeChunks (String.mk (encodeChunks b)).data).getD [] = b
  rw [show (String.mk (encodeChunks b)).data = encodeChunks b from rfl,
    decodeChunks_encodeChunks b h]
  rfl

/-- Every value the decoder produces is a real byte. -/
theorem decodeChunks_valid :
    ∀ (cs : List Char) (bs : Bytes), decodeChunks cs = some bs → ValidBytes bs
  | [], _, h => by
      simp only [decodeChunks, Option.some.injEq] at h
      subst h
      intro x hx
      cases hx
  | [_], _, h => by
      simp only [decodeChunks, Option.some.injEq] at h
      subst h
      intro x hx
      cases hx
  | [_, _], _, h => by
      simp only [decodeChunks, Option.some.injEq] at h
      subst h
      intro x hx
      cases hx
  | [_, _, _], _, h => by
      simp only [decodeChunks, Option.some.injEq] at h
      subst h
      intro x hx
      cases hx
  | c1 :: c2 :: c3 :: c4 :: rest, bs, h => by
      cases hv1 : charToVal c1 with
      | none => simp [decodeChunks, hv1] at h
      | some v1 =>
        cases hv2 : charToVal c2 with
        | none => simp [decodeChunks, hv1, hv2] at h
        | some v2 =>
          simp only [decodeChunks, hv1, hv2] at h
          have b1 : v1 < 64 := charToVal_lt hv1
          have b2 : v2 < 64 := charToVal_lt hv2
          by_cases hc3 : c3 = '='
          · rw [if_pos hc3] at h
            by_cases hc4 : c4 = '=' ∧ rest = []
            · rw [if_pos hc4] at h
              cases h
              intro x hx
              simp at hx
              omega
            · rw [if_neg hc4] at h
              cases h
          · rw [if_neg hc3] at h
            cases hv3 : charToVal c3 with
            | none => simp [hv3] at h
            | some v3 =>
              simp only [hv3] at h
              have b3 : v3 < 64 := charToVal_lt hv3
              by_cases hc4 : c4 = '='
              · rw [if_pos hc4] at h
                by_cases hrest : rest = []
                · rw [if_pos hrest] at h
                  cases h
                  intro x hx
                  simp at hx
                  rcases hx with hx | hx <;> omega
                · rw [if_neg hrest] at h
                  cases h
              · rw [if_neg hc4] at h
                cases hv4 : charToVal c4 with
                | none => simp [hv4] at h
                | some v4 =>
                  simp only [hv4] at h
                  have b4 : v4 < 64 := charToVal_lt hv4
                  cases hrec : decodeChunks rest with
                  | none => rw [hrec] at h; cases h
                  | some tail =>
                    rw [hrec] at h
                    have ihtail := decodeChunks_valid rest tail hrec
                    simp only [Option.map_some', Option.some.injEq] at h
                    subst h
                    intro x hx
                    simp at hx
                    rcases hx with hx | hx | hx | hx
                    · omega
                    · omega
                    · omega
                    · exact ihtail x hx

/-- Whatever `FromBase64` returns is a list of real bytes. -/
theorem fromBase64_valid (s : String) : ValidBytes (Convert.FromBase64 s) := by
  show ValidBytes ((decodeChunks s.data).getD [])
  cases hs : decodeChunks s.data with
  | none => intro x hx; cases hx
  | some bs => exact decodeChunks_valid s.data bs hs

/-- Encoding a non-empty byte list yields non-empty text. -/
theorem toBase64_ne_empty {b : Bytes} (h : b ≠ []) : Convert.ToBase64 b ≠ "" := by
  intro hc
  have hdata : encodeChunks b = ("" : String).data := congrArg String.data hc
  match b, h with
  | [a], _ => simp [encodeChunks] at hdata
  | [a, b'], _ => simp [encodeChunks] at hdata
  | a :: b' :: d :: rest, _ => simp [encodeChunks] at hdata

/-! ## Structure of the element `GetXml` builds -/

namespace KeyInfoX509Data

theorem getXml_children (st : KeyInfoX509Data) :
    st.GetXml.children =
      iserEls st ++ skiEls st ++ subjectNameEls st ++ certEls st ++ crlEls st := rfl

theorem iserEls_names {st : KeyInfoX509Data} {e : XmlEl} (h : e ∈ iserEls st) :
    e.localName = XmlSignature.ElementNames.X509IssuerSerial ∧
    e.namespaceURI = XmlSignature.NamespaceURI := by
  simp only [iserEls, List.mem_map] at h
  obtain ⟨p, -, rfl⟩ := h
  exact ⟨rfl, rfl⟩

theorem skiEls_names {st : KeyInfoX509Data} {e : XmlEl} (h : e ∈ skiEls st) :
    e.localName = XmlSignature.ElementNames.X509SKI ∧
    e.namespaceURI = XmlSignature.NamespaceURI := by
  simp only [skiEls, List.mem_map] at h
  obtain ⟨p, -, rfl⟩ := h
  exact ⟨rfl, rfl⟩

theorem subjectNameEls_names {st : KeyInfoX509Data} {e : XmlEl}
    (h : e ∈ subjectNameEls st) :
    e.localName = XmlSignature.ElementNames.X509SubjectName ∧
    e.namespaceURI = XmlSignature.NamespaceURI := by
  simp only [subjectNameEls, List.mem_map] at h
  obtain ⟨p, -, rfl⟩ := h
  exact ⟨rfl, rfl⟩

theorem certEls_names {st : KeyInfoX509Data} {e : XmlEl} (h : e ∈ certEls st) :
    e.localName = XmlSignature.ElementNames.X509Certificate ∧
    e.namespaceURI = XmlSignature.NamespaceURI := by
  simp only [certEls, List.mem_map] at h
  obtain ⟨p, -, rfl⟩ := h
  exact ⟨rfl, rfl⟩

theorem crlEls_names {st : KeyInfoX509Data} {e : XmlEl} (h : e ∈ crlEls st) :
    e.localName = XmlSignature.ElementNames.X509CRL ∧
    e.namespaceURI = XmlSignature.NamespaceURI := by
  cases hc : st.x509crl with
  | none => simp [crlEls, hc] at h
  | some b =>
      simp only [crlEls, hc, List.mem_singleton] at h
      subst h
      exact ⟨rfl, rfl⟩

/-- A group whose elements all carry the requested name passes the child filter
whole. -/
theorem filter_group_self {l : List XmlEl} {N : String}
    (h : ∀ e ∈ l, e.localName = N ∧ e.namespaceURI = XmlSignature.NamespaceURI) :
    l.filter
        (fun c => c.localName = N && c.namespaceURI = XmlSignature.NamespaceURI) = l :=
  List.filter_eq_self.mpr (fun e he => by
    obtain ⟨h1, h2⟩ := h e he
    simp [h1, h2])

/-- A group whose elements all carry some other name is dropped whole by the child
filter. -/
theorem filter_group_ne {l : List XmlEl} {M N : String} (hMN : M ≠ N)
    (h : ∀ e ∈ l, e.localName = M ∧ e.namespaceURI = XmlSignature.NamespaceURI) :
    l.filter
        (fun c => c.localName = N && c.namespaceURI = XmlSignature.NamespaceURI) = [] :=
  List.filter_eq_nil_iff.mpr (fun e he => by
    obtain ⟨h1, h2⟩ := h e he
    simp [h1, h2, hMN])

theorem getChildren_getXml_iser (st : KeyInfoX509Data) :
    GetChildren st.GetXml XmlSignature.ElementNames.X509IssuerSerial = iserEls st := by
  show (iserEls st ++ skiEls st ++ subjectNameEls st ++ certEls st ++ crlEls st).filter _ =
    iserEls st
  rw [List.filter_append, List.filter_append, List.filter_append, List.filter_append,
    filter_group_self (fun e he => iserEls_names he),
    filter_group_ne (by decide) (fun e he => skiEls_names he),
    filter_group_ne (by decide) (fun e he => subjectNameEls_names he),
    filter_group_ne (by decide) (fun e he => certEls_names he),
    filter_group_ne (by decide) (fun e he => crlEls_names he)]
  simp

theorem getChildren_getXml_ski (st : KeyInfoX509Data) :
    GetChildren st.GetXml XmlSignature.ElementNames.X509SKI = skiEls st := by
  show (iserEls st ++ skiEls st ++ subjectNameEls st ++ certEls st ++ crlEls st).filter _ =
    skiEls st
  rw [List.filter_append, List.filter_append, List.filter_append, List.filter_append,
    filter_group_ne (by decide) (fun e he => iserEls_names he),
    filter_group_self (fun e he => skiEls_names he),
    filter_group_ne (by decide) (fun e he => subjectNameEls_names he),
    filter_group_ne (by decide) (fun e he => certEls_names he),
    filter_group_ne (by decide) (fun e he => crlEls_names he)]
  simp

theorem getChildren_getXml_subjectName (st : KeyInfoX509Data) :
    GetChildren st.GetXml XmlSignature.ElementNames.X509SubjectName =
      subjectNameEls st := by
  show (iserEls st ++ skiEls st ++ subjectNameEls st ++ certEls st ++ crlEls st).filter _ =
    subjectNameEls st
  rw [List.filter_append, List.filter_append, List.filter_append, List.filter_append,
    filter_group_ne (by decide) (fun e he => iserEls_names he),
    filter_group_ne (by decide) (fun e he => skiEls_names he),
    filter_group_self (fun e he => subjectNameEls_names he),
    filter_group_ne (by decide) (fun e he => certEls_names he),
    filter_group_ne (by decide) (fun e he => crlEls_names he)]
  simp

theorem getChildren_getXml_cert (st : KeyInfoX509Data) :
    GetChildren st.GetXml XmlSignature.ElementNames.X509Certificate = certEls st := by
  show (iserEls st ++ skiEls st ++ subjectNameEls st ++ certEls st ++ crlEls st).filter _ =
    certEls st
  rw [List.filter_append, List.filter_append, List.filter_append, List.filter_append,
    filter_group_ne (by decide) (fun e he => iserEls_names he),
    filter_group_ne (by decide) (fun e he => skiEls_names he),
    filter_group_ne (by decide) (fun e he => subjectNameEls_names he),
    filter_group_self (fun e he => certEls_names he),
    filter_group_ne (by decide) (fun e he => crlEls_names he)]
  simp

theorem getChildren_getXml_crl (st : KeyInfoX509Data) :
    GetChildren st.GetXml XmlSignature.ElementNames.X509CRL = crlEls st := by
  show (iserEls st ++ skiEls st ++ subjectNameEls st ++ certEls st ++ crlEls st).filter _ =
    crlEls st
  rw [List.filter_append, List.filter_append, List.filter_append, List.filter_append,
    filter_group_ne (by decide) (fun e he => iserEls_names he),
    filter_group_ne (by decide) (fun e he => skiEls_names he),
    filter_group_ne (by decide) (fun e he => subjectNameEls_names he),
    filter_group_ne (by decide) (fun e he => certEls_names he),
    filter_group_self (fun e he => crlEls_names he)]
  simp

/-! ## Parse steps on children built by `GetXml` -/

theorem loadOneIssuerSerial_iserEl (acc : KeyInfoX509Data) (p : X509IssuerSerial)
    (hn : p.issuerName ≠ "") (hs : p.serialNumber.getD "" ≠ "")
    (hp : p.serialNumber.isSome) :
    loadOneIssuerSerial acc (iserEl p) =
      .ok { acc with IssuerSerialList := some (acc.IssuerSerialList.getD [] ++ [p]) } := by
  have hser : some (p.serialNumber.getD "") = p.serialNumber := by
    cases hps : p.serialNumber with
    | none => rw [hps] at hp; cases hp
    | some t => rfl
  have hgc1 : GetChild (iserEl p) XmlSignature.ElementNames.X509IssuerName =
      some (.mk XmlSignature.ElementNames.X509IssuerName XmlSignature.NamespaceURI
        p.issuerName []) := by
    simp +decide [GetChild, GetChildren, iserEl, XmlEl.children, XmlEl.localName,
      XmlEl.namespaceURI, XmlSignature.ElementNames.X509IssuerName,
      XmlSignature.ElementNames.X509SerialNumber, XmlSignature.NamespaceURI]
  have hgc2 : GetChild (iserEl p) XmlSignature.ElementNames.X509SerialNumber =
      some (.mk XmlSignature.ElementNames.X509SerialNumber XmlSignature.NamespaceURI
        (p.serialNumber.getD "") []) := by
    simp +decide [GetChild, GetChildren, iserEl, XmlEl.children, XmlEl.localName,
      XmlEl.namespaceURI, XmlSignature.ElementNames.X509IssuerName,
      XmlSignature.ElementNames.X509SerialNumber, XmlSignature.NamespaceURI]
  simp only [loadOneIssuerSerial, hgc1, hgc2, XmlEl.textContent]
  rw [if_pos ⟨hn, hs⟩]
  simp only [AddIssuerSerial, runThrow, hser]

theorem loadIserFold :
    ∀ (l : List X509IssuerSerial) (acc : KeyInfoX509Data),
    (∀ p ∈ l, p.issuerName ≠ "" ∧ p.serialNumber.getD "" ≠ "" ∧ p.serialNumber.isSome) →
    (l.map iserEl).foldlM loadOneIssuerSerial acc =
      .ok (if l = [] then acc
        else { acc with IssuerSerialList := some (acc.IssuerSerialList.getD [] ++ l) })
  | [], acc, _ => rfl
  | p :: l', acc, h => by
      obtain ⟨hn, hs, hp⟩ := h p (by simp)
      have ih := loadIserFold l'
        { acc with IssuerSerialList := some (acc.IssuerSerialList.getD [] ++ [p]) }
        (fun q hq => h q (by simp [hq]))
      rw [List.map_cons, List.foldlM_cons, loadOneIssuerSerial_iserEl acc p hn hs hp]
      show (l'.map iserEl).foldlM loadOneIssuerSerial _ = _
      rw [ih]
      by_cases hl' : l' = [] <;> simp [hl', List.append_assoc]

theorem loadOneSKI_skiEl (acc : KeyInfoX509Data) (b : Bytes) (hb : b ≠ [])
    (hv : ValidBytes b) :
    loadOneSKI acc (skiEl b) = { acc with SubjectKeyIdList := [b] } := by
  simp [loadOneSKI, skiEl, XmlEl.textContent, toBase64_ne_empty hb, AddSubjectKeyId,
    fromBase64_toBase64 hv]

theorem loadOneSubjectName_subjectNameEl (acc : KeyInfoX509Data) (s : String)
    (hs : s ≠ "") :
    loadOneSubjectName acc (subjectNameEl s) =
      { acc with SubjectNameList := some (acc.SubjectNameList.getD [] ++ [s]) } := by
  simp [loadOneSubjectName, subjectNameEl, XmlEl.textContent, hs, AddSubjectName]

theorem loadNameFold :
    ∀ (l : List String) (acc : KeyInfoX509Data), (∀ s ∈ l, s ≠ "") →
    (l.map subjectNameEl).foldl loadOneSubjectName acc =
      (if l = [] then acc
        else { acc with SubjectNameList := some (acc.SubjectNameList.getD [] ++ l) })
  | [], acc, _ => rfl
  | s :: l', acc, h => by
      have hs := h s (by simp)
      have ih := loadNameFold l'
        { acc with SubjectNameList := some (acc.SubjectNameList.getD [] ++ [s]) }
        (fun q hq => h q (by simp [hq]))
      rw [List.map_cons, List.foldl_cons, loadOneSubjectName_subjectNameEl acc s hs, ih]
      by_cases hl' : l' = [] <;> simp [hl', List.append_assoc]

theorem loadOneCertificate_certEl (acc : KeyInfoX509Data) (c : X509Certificate)
    (hc : c.rawData ≠ []) (hv : ValidBytes c.rawData) :
    loadOneCertificate acc (certEl c) =
      .ok { acc with
        X509CertificateList := some (acc.X509CertificateList.getD [] ++ [c]) } := by
  simp [loadOneCertificate, certEl, XmlEl.textContent, X509Certificate.GetRawCertData,
    toBase64_ne_empty hc, AddCertificate, runThrow, fromBase64_toBase64 hv]

theorem loadCertFold :
    ∀ (l : List X509Certificate) (acc : KeyInfoX509Data),
    (∀ c ∈ l, c.rawData ≠ [] ∧ ValidBytes c.rawData) →
    (l.map certEl).foldlM loadOneCertificate acc =
      .ok (if l = [] then acc
        else { acc with
          X509CertificateList := some (acc.X509CertificateList.getD [] ++ l) })
  | [], acc, _ => rfl
  | c :: l', acc, h => by
      obtain ⟨hc, hv⟩ := h c (by simp)
      have ih := loadCertFold l'
        { acc with X509CertificateList := some (acc.X509CertificateList.getD [] ++ [c]) }
        (fun q hq => h q (by simp [hq]))
      rw [List.map_cons, List.foldlM_cons, loadOneCertificate_certEl acc c hc hv]
      show (l'.map certEl).foldlM loadOneCertificate _ = _
      rw [ih]
      by_cases hl' : l' = [] <;> simp [hl', List.append_assoc]

/-! ## Round trip from a well-formed state -/

/-- States whose stored data survives the wire format: each lazily allocated list is
either still unallocated or non-empty, every stored text is non-empty, every stored
byte list is non-empty and made of real bytes, every serial number is present and
non-empty, the subject-key-id list holds at most one entry (every reachable state
does, a consequence of the reset in `AddSubjectKeyId`), and no key is cached. -/
def GoodState (st : KeyInfoX509Data) : Prop :=
  (∀ l, st.IssuerSerialList = some l →
    l ≠ [] ∧ ∀ p ∈ l,
      p.issuerName ≠ "" ∧ p.serialNumber.getD "" ≠ "" ∧ p.serialNumber.isSome) ∧
  (st.SubjectKeyIdList = [] ∨
    ∃ b, st.SubjectKeyIdList = [b] ∧ b ≠ [] ∧ ValidBytes b) ∧
  (∀ l, st.SubjectNameList = some l → l ≠ [] ∧ ∀ s ∈ l, s ≠ "") ∧
  (∀ l, st.X509CertificateList = some l →
    l ≠ [] ∧ ∀ c ∈ l, c.rawData ≠ [] ∧ ValidBytes c.rawData) ∧
  (∀ b, st.x509crl = some b → b ≠ [] ∧ ValidBytes b) ∧
  st.key = none

/-- Parsing the element `GetXml` builds from any well-formed state reproduces that
state exactly. -/
theorem loadXml_getXml_of_goodState {st : KeyInfoX509Data} (h : GoodState st) :
    KeyInfoX509Data.fresh.LoadXml st.GetXml = .ok st := by
  obtain ⟨hIser, hSki, hName, hCert, hCrl, hKey⟩ := h
  have hbind : ∀ (a : KeyInfoX509Data) (f : KeyInfoX509Data → Except XmlError KeyInfoX509Data),
      (Except.ok a >>= f) = f a := fun a f => rfl
  have h1 : loadIssuerSerials KeyInfoX509Data.fresh st.GetXml =
      .ok { KeyInfoX509Data.fresh with
            IssuerSerialList := st.IssuerSerialList } := by
    rw [loadIssuerSerials, getChildren_getXml_iser, iserEls]
    cases hi : st.IssuerSerialList with
    | none => rfl
    | some li =>
        obtain ⟨hne, hgood⟩ := hIser li hi
        rw [show (some li).getD ([] : List X509IssuerSerial) = li from rfl,
          loadIserFold li KeyInfoX509Data.fresh hgood, if_neg hne]
        simp [fresh]
  have h2 : loadSKIs
        { KeyInfoX509Data.fresh with
          IssuerSerialList := st.IssuerSerialList } st.GetXml =
      { KeyInfoX509Data.fresh with
        IssuerSerialList := st.IssuerSerialList
        SubjectKeyIdList := st.SubjectKeyIdList } := by
    rw [loadSKIs, getChildren_getXml_ski, skiEls]
    rcases hSki with hempty | ⟨b, hb1, hbne, hbv⟩
    · rw [hempty]
      rfl
    · rw [hb1, List.map_singleton, List.foldl_cons, List.foldl_nil,
        loadOneSKI_skiEl _ b hbne hbv]
  have h3 : loadSubjectNames
        { KeyInfoX509Data.fresh with
          IssuerSerialList := st.IssuerSerialList
          SubjectKeyIdList := st.SubjectKeyIdList } st.GetXml =
      { KeyInfoX509Data.fresh with
        IssuerSerialList := st.IssuerSerialList
        SubjectKeyIdList := st.SubjectKeyIdList
        SubjectNameList := st.SubjectNameList } := by
    rw [loadSubjectNames, getChildren_getXml_subjectName, subjectNameEls]
    cases hi : st.SubjectNameList with
    | none => rfl
    | some ln =>
        obtain ⟨hne, hgood⟩ := hName ln hi
        rw [show (some ln).getD ([] : List String) = ln from rfl,
          loadNameFold ln _ hgood, if_neg hne]
        simp [fresh]
  have h4 : loadCertificates
        { KeyInfoX509Data.fresh with
          IssuerSerialList := st.IssuerSerialList
          SubjectKeyIdList := st.SubjectKeyIdList
          SubjectNameList := st.SubjectNameList } st.GetXml =
      .ok { KeyInfoX509Data.fresh with
            IssuerSerialList := st.IssuerSerialList
            SubjectKeyIdList := st.SubjectKeyIdList
            SubjectNameList := st.SubjectNameList
            X509CertificateList := st.X509CertificateList } := by
    rw [loadCertificates, getChildren_getXml_cert, certEls]
    cases hi : st.X509CertificateList with
    | none => rfl
    | some lc =>
        obtain ⟨hne, hgood⟩ := hCert lc hi
        rw [show (some lc).getD ([] : List X509Certificate) = lc from rfl,
          loadCertFold lc _ hgood, if_neg hne]
        simp [fresh]
  have h5 : loadCRL
        { KeyInfoX509Data.fresh with
          IssuerSerialList := st.IssuerSerialList
          SubjectKeyIdList := st.SubjectKeyIdList
          SubjectNameList := st.SubjectNameList
          X509CertificateList := st.X509CertificateList } st.GetXml =
      { KeyInfoX509Data.fresh with
        IssuerSerialList := st.IssuerSerialList
        SubjectKeyIdList := st.SubjectKeyIdList
        SubjectNameList := st.SubjectNameList
        X509CertificateList := st.X509CertificateList
        x509crl := st.x509crl } := by
    rw [loadCRL, GetChild, getChildren_getXml_crl, crlEls]
    cases hc : st.x509crl with
    | none => rfl
    | some b =>
        obtain ⟨hbne, hbv⟩ := hCrl b hc
        show (if (crlEl b).textContent ≠ "" then _ else _) = _
        rw [if_pos (show (crlEl b).textContent ≠ "" from toBase64_ne_empty hbne)]
        show _ = ({ KeyInfoX509Data.fresh with
          IssuerSerialList := st.IssuerSerialList
          SubjectKeyIdList := st.SubjectKeyIdList
          SubjectNameList := st.SubjectNameList
          X509CertificateList := st.X509CertificateList
          x509crl := some b } : KeyInfoX509Data)
        rw [show (crlEl b).textContent = Convert.ToBase64 b from rfl,
          fromBase64_toBase64 hbv]
  have hfinal :
      ({ KeyInfoX509Data.fresh with
        IssuerSerialList := st.IssuerSerialList
        SubjectKeyIdList := st.SubjectKeyIdList
        SubjectNameList := st.SubjectNameList
        X509CertificateList := st.X509CertificateList
        x509crl := st.x509crl } : KeyInfoX509Data) = st := by
    cases st with
    | mk a b c d e f =>
        simp only [key] at hKey
        subst hKey
        rfl
  rw [LoadXml, if_pos ⟨rfl, rfl⟩]
  simp only [show resetLists KeyInfoX509Data.fresh = KeyInfoX509Data.fresh from rfl, h1,
    hbind, h2, h3, h4, h5, hfinal]
  rfl

end KeyInfoX509Data

/-! ## Shape of the parse stages

Each stage of `LoadXml` returns normally on every input element and rewrites only
its own backing field. -/

namespace KeyInfoX509Data

theorem loadOneIssuerSerial_shape (acc : KeyInfoX509Data) (xel : XmlEl) :
    ∃ v, loadOneIssuerSerial acc xel = .ok { acc with IssuerSerialList := v } := by
  rcases h1 : GetChild xel XmlSignature.ElementNames.X509IssuerName with _ | i <;>
    rcases h2 : GetChild xel XmlSignature.ElementNames.X509SerialNumber with _ | s <;>
    simp only [loadOneIssuerSerial, h1, h2]
  · exact ⟨acc.IssuerSerialList, rfl⟩
  · exact ⟨acc.IssuerSerialList, rfl⟩
  · exact ⟨acc.IssuerSerialList, rfl⟩
  · split
    · exact ⟨_, rfl⟩
    · exact ⟨acc.IssuerSerialList, rfl⟩

theorem iserFold_shape :
    ∀ (xs : List XmlEl) (acc : KeyInfoX509Data),
      ∃ v, xs.foldlM loadOneIssuerSerial acc = .ok { acc with IssuerSerialList := v }
  | [], acc => ⟨acc.IssuerSerialList, rfl⟩
  | x :: xs, acc => by
      obtain ⟨v1, hv1⟩ := loadOneIssuerSerial_shape acc x
      obtain ⟨v, hv⟩ := iserFold_shape xs { acc with IssuerSerialList := v1 }
      refine ⟨v, ?_⟩
      rw [List.foldlM_cons, hv1]
      exact hv

theorem loadIssuerSerials_shape (acc : KeyInfoX509Data) (el : XmlEl) :
    ∃ v, loadIssuerSerials acc el = .ok { acc with IssuerSerialList := v } :=
  iserFold_shape _ acc

theorem loadOneSKI_shape (acc : KeyInfoX509Data) (xel : XmlEl) :
    ∃ v, loadOneSKI acc xel = { acc with SubjectKeyIdList := v } := by
  rw [loadOneSKI]
  split
  · exact ⟨[Convert.FromBase64 xel.textContent], rfl⟩
  · exact ⟨acc.SubjectKeyIdList, rfl⟩

theorem skiFold_shape :
    ∀ (xs : List XmlEl) (acc : KeyInfoX509Data),
      ∃ v, xs.foldl loadOneSKI acc = { acc with SubjectKeyIdList := v }
  | [], acc => ⟨acc.SubjectKeyIdList, rfl⟩
  | x :: xs, acc => by
      obtain ⟨v1, hv1⟩ := loadOneSKI_shape acc x
      obtain ⟨v, hv⟩ := skiFold_shape xs { acc with SubjectKeyIdList := v1 }
      refine ⟨v, ?_⟩
      rw [List.foldl_cons, hv1]
      exact hv

theorem loadSKIs_shape (acc : KeyInfoX509Data) (el : XmlEl) :
    ∃ v, loadSKIs acc el = { acc with SubjectKeyIdList := v } :=
  skiFold_shape _ acc

theorem loadOneSubjectName_shape (acc : KeyInfoX509Data) (xel : XmlEl) :
    ∃ v, loadOneSubjectName acc xel = { acc with SubjectNameList := v } := by
  rw [loadOneSubjectName]
  split
  · exact ⟨some (acc.SubjectNameList.getD [] ++ [xel.textContent]), rfl⟩
  · exact ⟨acc.SubjectNameList, rfl⟩

theorem nameFold_shape :
    ∀ (xs : List XmlEl) (acc : KeyInfoX509Data),
      ∃ v, xs.foldl loadOneSubjectName acc = { acc with SubjectNameList := v }
  | [], acc => ⟨acc.SubjectNameList, rfl⟩
  | x :: xs, acc => by
      obtain ⟨v1, hv1⟩ := loadOneSubjectName_shape acc x
      obtain ⟨v, hv⟩ := nameFold_shape xs { acc with SubjectNameList := v1 }
      refine ⟨v, ?_⟩
      rw [List.foldl_cons, hv1]
      exact hv

theorem loadSubjectNames_shape (acc : KeyInfoX509Data) (el : XmlEl) :
    ∃ v, loadSubjectNames acc el = { acc with SubjectNameList := v } :=
  nameFold_shape _ acc

theorem loadOneCertificate_shape (acc : KeyInfoX509Data) (xel : XmlEl) :
    ∃ v, loadOneCertificate acc xel = .ok { acc with X509CertificateList := v } := by
  rw [loadOneCertificate]
  split
  · exact ⟨_, rfl⟩
  · exact ⟨acc.X509CertificateList, rfl⟩

theorem certFold_shape :
    ∀ (xs : List XmlEl) (acc : KeyInfoX509Data),
      ∃ v, xs.foldlM loadOneCertificate acc = .ok { acc with X509CertificateList := v }
  | [], acc => ⟨acc.X509CertificateList, rfl⟩
  | x :: xs, acc => by
      obtain ⟨v1, hv1⟩ := loadOneCertificate_shape acc x
      obtain ⟨v, hv⟩ := certFold_shape xs { acc with X509CertificateList := v1 }
      refine ⟨v, ?_⟩
      rw [List.foldlM_cons, hv1]
      exact hv

theorem loadCertificates_shape (acc : KeyInfoX509Data) (el : XmlEl) :
    ∃ v, loadCertificates acc el = .ok { acc with X509CertificateList := v } :=
  certFold_shape _ acc

theorem loadCRL_shape (acc : KeyInfoX509Data) (el : XmlEl) :
    ∃ v, loadCRL acc el = { acc with x509crl := v } := by
  rcases hg : GetChild el XmlSignature.ElementNames.X509CRL with _ | x <;>
    simp only [loadCRL, hg]
  · exact ⟨acc.x509crl, rfl⟩
  · by_cases ht : x.textContent ≠ ""
    · rw [if_pos ht]
      exact ⟨_, rfl⟩
    · rw [if_neg ht]
      exact ⟨acc.x509crl, rfl⟩

/-- The tail of the parse (SKI, subject-name, certificate and CRL stages) always
returns normally. -/
theorem loadTail_ok (s : KeyInfoX509Data) (el : XmlEl) :
    ∃ r, (loadCertificates ((s.loadSKIs el).loadSubjectNames el) el >>= fun s2 =>
      pure (s2.loadCRL el)) = .ok r := by
  obtain ⟨v4, hv4⟩ := loadCertificates_shape ((s.loadSKIs el).loadSubjectNames el) el
  exact ⟨_, by rw [hv4]; rfl⟩

/-- After the name check, `LoadXml` always returns normally. -/
theorem loadXml_ok (st : KeyInfoX509Data) (el : XmlEl)
    (hname : el.localName = XmlSignature.ElementNames.X509Data ∧
      el.namespaceURI = XmlSignature.NamespaceURI) :
    ∃ r, st.LoadXml el = .ok r := by
  obtain ⟨v1, hv1⟩ := loadIssuerSerials_shape (resetLists st) el
  obtain ⟨r, hr⟩ := loadTail_ok { resetLists st with IssuerSerialList := v1 } el
  refine ⟨r, ?_⟩
  rw [LoadXml, if_pos hname]
  show (KeyInfoX509Data.loadIssuerSerials (resetLists st) el >>= fun s =>
    KeyInfoX509Data.loadCertificates
        ((s.loadSKIs el).loadSubjectNames el) el >>= fun s2 =>
      pure (s2.loadCRL el)) = .ok r
  rw [hv1]
  exact hr

/-- A malformed issuer/serial group — one of its two required children missing — is
skipped: the parse step returns the state unchanged and continues. -/
theorem loadOneIssuerSerial_skip (acc : KeyInfoX509Data) (bad : XmlEl)
    (h : GetChild bad XmlSignature.ElementNames.X509IssuerName = none ∨
      GetChild bad XmlSignature.ElementNames.X509SerialNumber = none) :
    loadOneIssuerSerial acc bad = .ok acc := by
  rcases h1 : GetChild bad XmlSignature.ElementNames.X509IssuerName with _ | i <;>
    rcases h2 : GetChild bad XmlSignature.ElementNames.X509SerialNumber with _ | s <;>
    simp only [loadOneIssuerSerial, h1, h2]
  · rfl
  · rfl
  · rfl
  · rcases h with h | h
    · rw [h1] at h
      cases h
    · rw [h2] at h
      cases h

/-- Folding a step that leaves every state unchanged on `bad` ignores `bad`. -/
theorem foldlM_skip {f : KeyInfoX509Data → XmlEl → Except XmlError KeyInfoX509Data}
    {bad : XmlEl} (hskip : ∀ a, f a bad = .ok a) :
    ∀ (l1 l2 : List XmlEl) (acc : KeyInfoX509Data),
      (l1 ++ bad :: l2).foldlM f acc = (l1 ++ l2).foldlM f acc
  | [], l2, acc => by
      rw [List.nil_append, List.nil_append, List.foldlM_cons, hskip acc]
      rfl
  | x :: l1, l2, acc => by
      rw [List.cons_append, List.cons_append, List.foldlM_cons, List.foldlM_cons]
      cases hx : f acc x with
      | error e => rfl
      | ok a' =>
          show (l1 ++ bad :: l2).foldlM f a' = (l1 ++ l2).foldlM f a'
          exact foldlM_skip hskip l1 l2 a'

/-- Matching children around a dropped middle child, when the middle child does not
carry the requested name. -/
theorem getChildren_drop {pre post : List XmlEl} {bad : XmlEl} (el : XmlEl)
    (hch : el.children = pre ++ bad :: post) (N : String)
    (hN : ¬(bad.localName = N ∧ bad.namespaceURI = XmlSignature.NamespaceURI)) :
    GetChildren el N =
      GetChildren (XmlEl.mk el.localName el.namespaceURI el.textContent (pre ++ post))
        N := by
  have hbadfalse :
      (bad.localName = N && bad.namespaceURI = XmlSignature.NamespaceURI) = false := by
    rcases Decidable.not_and_iff_or_not.mp hN with h | h <;> simp [h]
  simp only [GetChildren]
  rw [hch, show (XmlEl.mk el.localName el.namespaceURI el.textContent
    (pre ++ post)).children = pre ++ post from rfl]
  simp [List.filter_append, List.filter_cons, hbadfalse]

/-- Matching children around a kept middle child that carries the requested name. -/
theorem getChildren_keep {pre post : List XmlEl} {bad : XmlEl} (el : XmlEl)
    (hch : el.children = pre ++ bad :: post) (N : String)
    (hN : bad.localName = N ∧ bad.namespaceURI = XmlSignature.NamespaceURI) :
    GetChildren el N =
      (pre.filter
          (fun c => c.localName = N && c.namespaceURI = XmlSignature.NamespaceURI)) ++
        bad ::
          (post.filter
            (fun c => c.localName = N && c.namespaceURI = XmlSignature.NamespaceURI)) := by
  simp only [GetChildren]
  rw [hch]
  simp [List.filter_append, List.filter_cons, hN.1, hN.2]

/-- A successful parse decomposes into its five stages. -/
theorem loadXml_dissect (st : KeyInfoX509Data) (el : XmlEl) (r : KeyInfoX509Data)
    (h : st.LoadXml el = .ok r) :
    ∃ s1 s4,
      loadIssuerSerials (resetLists st) el = .ok s1 ∧
      loadCertificates ((s1.loadSKIs el).loadSubjectNames el) el = .ok s4 ∧
      loadCRL s4 el = r := by
  by_cases hcond : el.localName = XmlSignature.ElementNames.X509Data ∧
      el.namespaceURI = XmlSignature.NamespaceURI
  case neg =>
    rw [LoadXml, if_neg hcond] at h
    cases h
  case pos =>
    rw [LoadXml, if_pos hcond] at h
    replace h : (loadIssuerSerials (resetLists st) el >>= fun s =>
        loadCertificates ((s.loadSKIs el).loadSubjectNames el) el >>= fun s2 =>
          pure (s2.loadCRL el)) = .ok r := h
    cases h1 : loadIssuerSerials (resetLists st) el with
    | error e =>
        rw [h1] at h
        cases h
    | ok s1 =>
        rw [h1] at h
        replace h : (loadCertificates ((s1.loadSKIs el).loadSubjectNames el) el >>=
            fun s2 => pure (s2.loadCRL el)) = .ok r := h
        cases h4 : loadCertificates ((s1.loadSKIs el).loadSubjectNames el) el with
        | error e =>
            rw [h4] at h
            cases h
        | ok s4 =>
            rw [h4] at h
            replace h : Except.ok (s4.loadCRL el) = .ok r := h
            exact ⟨s1, s4, rfl, h4, Except.ok.inj h⟩

theorem resetLists_iser_view (st : KeyInfoX509Data) :
    (resetLists st).IssuerSerialList.getD [] = [] := by
  show (st.IssuerSerialList.map fun _ => []).getD [] = []
  cases st.IssuerSerialList <;> rfl

theorem resetLists_name_view (st : KeyInfoX509Data) :
    (resetLists st).SubjectNameList.getD [] = [] := by
  show (st.SubjectNameList.map fun _ => []).getD [] = []
  cases st.SubjectNameList <;> rfl

theorem resetLists_cert_view (st : KeyInfoX509Data) :
    (resetLists st).X509CertificateList.getD [] = [] := by
  show (st.X509CertificateList.map fun _ => []).getD [] = []
  cases st.X509CertificateList <;> rfl

theorem loadIssuerSerials_frame (acc : KeyInfoX509Data) (el : XmlEl)
    (s : KeyInfoX509Data) (h : loadIssuerSerials acc el = .ok s) :
    s.SubjectKeyIdList = acc.SubjectKeyIdList ∧
    s.SubjectNameList = acc.SubjectNameList ∧
    s.X509CertificateList = acc.X509CertificateList ∧
    s.x509crl = acc.x509crl := by
  obtain ⟨v, hv⟩ := loadIssuerSerials_shape acc el
  rw [h] at hv
  rw [Except.ok.inj hv]
  exact ⟨rfl, rfl, rfl, rfl⟩

theorem loadSKIs_frame (acc : KeyInfoX509Data) (el : XmlEl) :
    (loadSKIs acc el).IssuerSerialList = acc.IssuerSerialList ∧
    (loadSKIs acc el).SubjectNameList = acc.SubjectNameList ∧
    (loadSKIs acc el).X509CertificateList = acc.X509CertificateList ∧
    (loadSKIs acc el).x509crl = acc.x509crl := by
  obtain ⟨v, hv⟩ := loadSKIs_shape acc el
  rw [hv]
  exact ⟨rfl, rfl, rfl, rfl⟩

theorem loadSubjectNames_frame (acc : KeyInfoX509Data) (el : XmlEl) :
    (loadSubjectNames acc el).IssuerSerialList = acc.IssuerSerialList ∧
    (loadSubjectNames acc el).SubjectKeyIdList = acc.SubjectKeyIdList ∧
    (loadSubjectNames acc el).X509CertificateList = acc.X509CertificateList ∧
    (loadSubjectNames acc el).x509crl = acc.x509crl := by
  obtain ⟨v, hv⟩ := loadSubjectNames_shape acc el
  rw [hv]
  exact ⟨rfl, rfl, rfl, rfl⟩

theorem loadCertificates_frame (acc : KeyInfoX509Data) (el : XmlEl)
    (s : KeyInfoX509Data) (h : loadCertificates acc el = .ok s) :
    s.IssuerSerialList = acc.IssuerSerialList ∧
    s.SubjectKeyIdList = acc.SubjectKeyIdList ∧
    s.SubjectNameList = acc.SubjectNameList ∧
    s.x509crl = acc.x509crl := by
  obtain ⟨v, hv⟩ := loadCertificates_shape acc el
  rw [h] at hv
  rw [Except.ok.inj hv]
  exact ⟨rfl, rfl, rfl, rfl⟩

theorem loadCRL_frame (acc : KeyInfoX509Data) (el : XmlEl) :
    (loadCRL acc el).IssuerSerialList = acc.IssuerSerialList ∧
    (loadCRL acc el).SubjectKeyIdList = acc.SubjectKeyIdList ∧
    (loadCRL acc el).SubjectNameList = acc.SubjectNameList ∧
    (loadCRL acc el).X509CertificateList = acc.X509CertificateList := by
  obtain ⟨v, hv⟩ := loadCRL_shape acc el
  rw [hv]
  exact ⟨rfl, rfl, rfl, rfl⟩

/-- Absent child groups leave the corresponding collection empty (and the CRL
absent), never raising an error. -/
theorem loadXml_absent_groups (st : KeyInfoX509Data) (el : XmlEl)
    (r : KeyInfoX509Data) (h : st.LoadXml el = .ok r) :
    (GetChildren el XmlSignature.ElementNames.X509IssuerSerial = [] →
      r.IssuerSerialList.getD [] = []) ∧
    (GetChildren el XmlSignature.ElementNames.X509SKI = [] →
      r.SubjectKeyIdList = []) ∧
    (GetChildren el XmlSignature.ElementNames.X509SubjectName = [] →
      r.SubjectNameList.getD [] = []) ∧
    (GetChildren el XmlSignature.ElementNames.X509Certificate = [] →
      r.X509CertificateList.getD [] = []) ∧
    (GetChildren el XmlSignature.ElementNames.X509CRL = [] → r.x509crl = none) := by
  obtain ⟨s1, s4, h1, h4, h5⟩ := loadXml_dissect st el r h
  obtain ⟨f1a, f1b, f1c, f1d⟩ := loadIssuerSerials_frame _ el s1 h1
  obtain ⟨f2a, f2b, f2c, f2d⟩ := loadSKIs_frame s1 el
  obtain ⟨f3a, f3b, f3c, f3d⟩ := loadSubjectNames_frame (s1.loadSKIs el) el
  obtain ⟨f4a, f4b, f4c, f4d⟩ := loadCertificates_frame _ el s4 h4
  obtain ⟨f5a, f5b, f5c, f5d⟩ := loadCRL_frame s4 el
  refine ⟨?_, ?_, ?_, ?_, ?_⟩
  · intro hempty
    rw [loadIssuerSerials, hempty] at h1
    have hs1 : s1 = resetLists st := (Except.ok.inj h1).symm
    rw [← h5, f5a, f4a, f3a, f2a, hs1]
    exact resetLists_iser_view st
  · intro hempty
    have hski : s1.loadSKIs el = s1 := by
      rw [loadSKIs, hempty]
      rfl
    rw [← h5, f5b, f4b, f3b, hski, f1a]
    rfl
  · intro hempty
    have hnames : (s1.loadSKIs el).loadSubjectNames el = s1.loadSKIs el := by
      rw [loadSubjectNames, hempty]
      rfl
    rw [← h5, f5c, f4c, hnames, f2b, f1b]
    exact resetLists_name_view st
  · intro hempty
    rw [loadCertificates, hempty] at h4
    have hs4 : s4 = (s1.loadSKIs el).loadSubjectNames el := (Except.ok.inj h4).symm
    rw [← h5, f5d, hs4, f3c, f2c, f1c]
    exact resetLists_cert_view st
  · intro hempty
    have hcrl : s4.loadCRL el = s4 := by
      rw [loadCRL, GetChild, hempty]
      rfl
    rw [← h5, hcrl, f4d, f3d, f2d, f1d]
    rfl

/-- Dropping a malformed issuer/serial child from the element does not change the
parse at all: the whole `LoadXml` result is identical with and without it. -/
theorem loadXml_skips_malformed (st : KeyInfoX509Data) (el : XmlEl)
    (pre post : List XmlEl) (bad : XmlEl)
    (hname : el.localName = XmlSignature.ElementNames.X509Data ∧
      el.namespaceURI = XmlSignature.NamespaceURI)
    (hbadname : bad.localName = XmlSignature.ElementNames.X509IssuerSerial ∧
      bad.namespaceURI = XmlSignature.NamespaceURI)
    (hbadmiss : GetChild bad XmlSignature.ElementNames.X509IssuerName = none ∨
      GetChild bad XmlSignature.ElementNames.X509SerialNumber = none)
    (hch : el.children = pre ++ bad :: post) :
    st.LoadXml el =
      st.LoadXml (XmlEl.mk el.localName el.namespaceURI el.textContent (pre ++ post)) := by
  have hmisN : ∀ N : String, bad.localName ≠ N →
      ¬(bad.localName = N ∧ bad.namespaceURI = XmlSignature.NamespaceURI) :=
    fun N hne hcontra => hne hcontra.1
  have hIserEq : ∀ acc : KeyInfoX509Data, loadIssuerSerials acc el =
      loadIssuerSerials acc
        (XmlEl.mk el.localName el.namespaceURI el.textContent (pre ++ post)) := by
    intro acc
    rw [loadIssuerSerials, loadIssuerSerials,
      getChildren_keep el hch XmlSignature.ElementNames.X509IssuerSerial hbadname,
      show GetChildren (XmlEl.mk el.localName el.namespaceURI el.textContent
          (pre ++ post)) XmlSignature.ElementNames.X509IssuerSerial =
        (pre.filter (fun c => c.localName = XmlSignature.ElementNames.X509IssuerSerial &&
            c.namespaceURI = XmlSignature.NamespaceURI)) ++
          (post.filter
            (fun c => c.localName = XmlSignature.ElementNames.X509IssuerSerial &&
              c.namespaceURI = XmlSignature.NamespaceURI))
        from by simp [GetChildren, XmlEl.children, List.filter_append]]
    exact foldlM_skip (fun a => loadOneIssuerSerial_skip a bad hbadmiss) _ _ acc
  have hSkiEq : ∀ acc : KeyInfoX509Data, loadSKIs acc el =
      loadSKIs acc
        (XmlEl.mk el.localName el.namespaceURI el.textContent (pre ++ post)) := by
    intro acc
    rw [loadSKIs, loadSKIs, getChildren_drop el hch XmlSignature.ElementNames.X509SKI
      (hmisN _ (by rw [hbadname.1]; decide))]
  have hNameEq : ∀ acc : KeyInfoX509Data, loadSubjectNames acc el =
      loadSubjectNames acc
        (XmlEl.mk el.localName el.namespaceURI el.textContent (pre ++ post)) := by
    intro acc
    rw [loadSubjectNames, loadSubjectNames,
      getChildren_drop el hch XmlSignature.ElementNames.X509SubjectName
        (hmisN _ (by rw [hbadname.1]; decide))]
  have hCertEq : ∀ acc : KeyInfoX509Data, loadCertificates acc el =
      loadCertificates acc
        (XmlEl.mk el.localName el.namespaceURI el.textContent (pre ++ post)) := by
    intro acc
    rw [loadCertificates, loadCertificates,
      getChildren_drop el hch XmlSignature.ElementNames.X509Certificate
        (hmisN _ (by rw [hbadname.1]; decide))]
  have hCrlEq : ∀ acc : KeyInfoX509Data, loadCRL acc el =
      loadCRL acc
        (XmlEl.mk el.localName el.namespaceURI el.textContent (pre ++ post)) := by
    intro acc
    rw [loadCRL, loadCRL, GetChild, GetChild,
      getChildren_drop el hch XmlSignature.ElementNames.X509CRL
        (hmisN _ (by rw [hbadname.1]; decide))]
  rw [LoadXml, LoadXml, if_pos hname, if_pos (⟨hname.1, hname.2⟩ :
    (XmlEl.mk el.localName el.namespaceURI el.textContent
      (pre ++ post)).localName = XmlSignature.ElementNames.X509Data ∧
    (XmlEl.mk el.localName el.namespaceURI el.textContent
      (pre ++ post)).namespaceURI = XmlSignature.NamespaceURI)]
  simp only [hIserEq, hSkiEq, hNameEq, hCertEq, hCrlEq]

/-! ## Collection views

The JS-observable contents of the collections: an unallocated (`undefined`) list
reads as the empty collection.  Two states with equal views hold the same entries
even when their empty collections are represented differently. -/

def ViewEq (a b : KeyInfoX509Data) : Prop :=
  a.IssuerSerialList.getD [] = b.IssuerSerialList.getD [] ∧
  a.SubjectKeyIdList = b.SubjectKeyIdList ∧
  a.SubjectNameList.getD [] = b.SubjectNameList.getD [] ∧
  a.X509CertificateList.getD [] = b.X509CertificateList.getD [] ∧
  a.x509crl = b.x509crl

theorem resetLists_viewEq (a b : KeyInfoX509Data) :
    ViewEq (resetLists a) (resetLists b) :=
  ⟨(resetLists_iser_view a).trans (resetLists_iser_view b).symm, rfl,
    (resetLists_name_view a).trans (resetLists_name_view b).symm,
    (resetLists_cert_view a).trans (resetLists_cert_view b).symm, rfl⟩

theorem loadOneIssuerSerial_viewCongr {a b : KeyInfoX509Data} (hab : ViewEq a b)
    (xel : XmlEl) :
    ∃ a' b', loadOneIssuerSerial a xel = .ok a' ∧ loadOneIssuerSerial b xel = .ok b' ∧
      ViewEq a' b' := by
  obtain ⟨e1, e2, e3, e4, e5⟩ := hab
  rcases h1 : GetChild xel XmlSignature.ElementNames.X509IssuerName with _ | i <;>
    rcases h2 : GetChild xel XmlSignature.ElementNames.X509SerialNumber with _ | s <;>
    simp only [loadOneIssuerSerial, h1, h2]
  · exact ⟨a, b, rfl, rfl, e1, e2, e3, e4, e5⟩
  · exact ⟨a, b, rfl, rfl, e1, e2, e3, e4, e5⟩
  · exact ⟨a, b, rfl, rfl, e1, e2, e3, e4, e5⟩
  · by_cases hcnd : i.textContent ≠ "" ∧ s.textContent ≠ ""
    · rw [if_pos hcnd, if_pos hcnd]
      refine ⟨_, _, rfl, rfl, ?_, e2, e3, e4, e5⟩
      have : a.IssuerSerialList.getD [] ++
            [(⟨i.textContent, some s.textContent⟩ : X509IssuerSerial)] =
          b.IssuerSerialList.getD [] ++ [⟨i.textContent, some s.textContent⟩] := by
        rw [e1]
      exact this
    · rw [if_neg hcnd, if_neg hcnd]
      exact ⟨a, b, rfl, rfl, e1, e2, e3, e4, e5⟩

theorem iserFold_viewCongr :
    ∀ (xs : List XmlEl) {a b : KeyInfoX509Data}, ViewEq a b →
      ∃ a' b', xs.foldlM loadOneIssuerSerial a = .ok a' ∧
        xs.foldlM loadOneIssuerSerial b = .ok b' ∧ ViewEq a' b'
  | [], a, b, hab => ⟨a, b, rfl, rfl, hab⟩
  | x :: xs, a, b, hab => by
      obtain ⟨a1, b1, ha1, hb1, hab1⟩ := loadOneIssuerSerial_viewCongr hab x
      obtain ⟨a', b', ha', hb', hab'⟩ := iserFold_viewCongr xs hab1
      refine ⟨a', b', ?_, ?_, hab'⟩
      · rw [List.foldlM_cons, ha1]
        exact ha'
      · rw [List.foldlM_cons, hb1]
        exact hb'

theorem loadOneSKI_viewCongr {a b : KeyInfoX509Data} (hab : ViewEq a b) (xel : XmlEl) :
    ViewEq (loadOneSKI a xel) (loadOneSKI b xel) := by
  obtain ⟨e1, e2, e3, e4, e5⟩ := hab
  simp only [loadOneSKI]
  by_cases ht : xel.textContent ≠ ""
  · rw [if_pos ht, if_pos ht]
    exact ⟨e1, rfl, e3, e4, e5⟩
  · rw [if_neg ht, if_neg ht]
    exact ⟨e1, e2, e3, e4, e5⟩

theorem skiFold_viewCongr :
    ∀ (xs : List XmlEl) {a b : KeyInfoX509Data}, ViewEq a b →
      ViewEq (xs.foldl loadOneSKI a) (xs.foldl loadOneSKI b)
  | [], _, _, hab => hab
  | x :: xs, a, b, hab => by
      rw [List.foldl_cons, List.foldl_cons]
      exact skiFold_viewCongr xs (loadOneSKI_viewCongr hab x)

theorem loadOneSubjectName_viewCongr {a b : KeyInfoX509Data} (hab : ViewEq a b)
    (xel : XmlEl) :
    ViewEq (loadOneSubjectName a xel) (loadOneSubjectName b xel) := by
  obtain ⟨e1, e2, e3, e4, e5⟩ := hab
  simp only [loadOneSubjectName]
  by_cases ht : xel.textContent ≠ ""
  · rw [if_pos ht, if_pos ht]
    refine ⟨e1, e2, ?_, e4, e5⟩
    have : a.SubjectNameList.getD [] ++ [xel.textContent] =
        b.SubjectNameList.getD [] ++ [xel.textContent] := by
      rw [e3]
    exact this
  · rw [if_neg ht, if_neg ht]
    exact ⟨e1, e2, e3, e4, e5⟩

theorem nameFold_viewCongr :
    ∀ (xs : List XmlEl) {a b : KeyInfoX509Data}, ViewEq a b →
      ViewEq (xs.foldl loadOneSubjectName a) (xs.foldl loadOneSubjectName b)
  | [], _, _, hab => hab
  | x :: xs, a, b, hab => by
      rw [List.foldl_cons, List.foldl_cons]
      exact nameFold_viewCongr xs (loadOneSubjectName_viewCongr hab x)

theorem loadOneCertificate_viewCongr {a b : KeyInfoX509Data} (hab : ViewEq a b)
    (xel : XmlEl) :
    ∃ a' b', loadOneCertificate a xel = .ok a' ∧ loadOneCertificate b xel = .ok b' ∧
      ViewEq a' b' := by
  obtain ⟨e1, e2, e3, e4, e5⟩ := hab
  simp only [loadOneCertificate]
  by_cases ht : xel.textContent ≠ ""
  · rw [if_pos ht, if_pos ht]
    refine ⟨_, _, rfl, rfl, e1, e2, e3, ?_, e5⟩
    have : a.X509CertificateList.getD [] ++
          [(⟨Convert.FromBase64 xel.textContent⟩ : X509Certificate)] =
        b.X509CertificateList.getD [] ++ [⟨Convert.FromBase64 xel.textContent⟩] := by
      rw [e4]
    exact this
  · rw [if_neg ht, if_neg ht]
    exact ⟨a, b, rfl, rfl, e1, e2, e3, e4, e5⟩

theorem certFold_viewCongr :
    ∀ (xs : List XmlEl) {a b : KeyInfoX509Data}, ViewEq a b →
      ∃ a' b', xs.foldlM loadOneCertificate a = .ok a' ∧
        xs.foldlM loadOneCertificate b = .ok b' ∧ ViewEq a' b'
  | [], a, b, hab => ⟨a, b, rfl, rfl, hab⟩
  | x :: xs, a, b, hab => by
      obtain ⟨a1, b1, ha1, hb1, hab1⟩ := loadOneCertificate_viewCongr hab x
      obtain ⟨a', b', ha', hb', hab'⟩ := certFold_viewCongr xs hab1
      refine ⟨a', b', ?_, ?_, hab'⟩
      · rw [List.foldlM_cons, ha1]
        exact ha'
      · rw [List.foldlM_cons, hb1]
        exact hb'

theorem loadCRL_viewCongr {a b : KeyInfoX509Data} (hab : ViewEq a b) (el : XmlEl) :
    ViewEq (loadCRL a el) (loadCRL b el) := by
  obtain ⟨e1, e2, e3, e4, e5⟩ := hab
  rcases hg : GetChild el XmlSignature.ElementNames.X509CRL with _ | x <;>
    simp only [loadCRL, hg]
  · exact ⟨e1, e2, e3, e4, e5⟩
  · by_cases ht : x.textContent ≠ ""
    · rw [if_pos ht, if_pos ht]
      exact ⟨e1, e2, e3, e4, rfl⟩
    · rw [if_neg ht, if_neg ht]
      exact ⟨e1, e2, e3, e4, e5⟩

end KeyInfoX509Data

/-! ## Mutator call sequences

A state "populated through `Add*` operations and the CRL setter" is the fold of a
call sequence over a fresh instance.  Calls with an absent mandatory argument throw
without mutating anything (theorem `C9_paramRequired_before_mutation`), so the
sequences carry the present arguments. -/

inductive X509Op where
  | addCertificate (cert : X509Certificate)
  | addIssuerSerial (issuerName : String) (serialNumber : Option String)
  | addSubjectKeyId (value : KeyInfoX509Data.StringOrBytes)
  | addSubjectName (subjectName : String)
  | setCRL (value : Option Bytes)
  deriving DecidableEq

def applyOp (self : KeyInfoX509Data) (op : X509Op) : KeyInfoX509Data :=
  match op with
  | .addCertificate c => (self.AddCertificate (some c)).2
  | .addIssuerSerial n s => (self.AddIssuerSerial (some n) s).2
  | .addSubjectKeyId v => self.AddSubjectKeyId v
  | .addSubjectName s => self.AddSubjectName s
  | .setCRL v => self.setCRL v

/-- The calls whose data survives the wire format: no empty texts, no absent or
empty serial numbers, no empty byte arrays (byte-array entries below 256, as
`Uint8Array` guarantees). -/
def goodOp : X509Op → Bool
  | .addCertificate c => decide (c.rawData ≠ []) && decide (ValidBytes c.rawData)
  | .addIssuerSerial n s => decide (n ≠ "") && decide (s.getD "" ≠ "")
  | .addSubjectKeyId (.str s) => decide (Convert.FromBase64 s ≠ [])
  | .addSubjectKeyId (.bytes b) => decide (b ≠ []) && decide (ValidBytes b)
  | .addSubjectName s => decide (s ≠ "")
  | .setCRL none => true
  | .setCRL (some b) => decide (b ≠ []) && decide (ValidBytes b)

theorem goodState_fresh : KeyInfoX509Data.GoodState KeyInfoX509Data.fresh := by
  refine ⟨?_, Or.inl rfl, ?_, ?_, ?_, rfl⟩ <;> intro l h <;> cases h

theorem goodState_applyOp {st : KeyInfoX509Data} (h : KeyInfoX509Data.GoodState st)
    {op : X509Op} (hop : goodOp op = true) :
    KeyInfoX509Data.GoodState (applyOp st op) := by
  obtain ⟨hIser, hSki, hName, hCert, hCrl, hKey⟩ := h
  cases op with
  | addCertificate c =>
      simp only [goodOp, Bool.and_eq_true, decide_eq_true_eq] at hop
      refine ⟨hIser, hSki, hName, fun l hl => ?_, hCrl, hKey⟩
      rw [applyOp, KeyInfoX509Data.AddCertificate] at hl
      simp only [Option.some.injEq] at hl
      subst hl
      refine ⟨by simp, fun c' hc' => ?_⟩
      rw [List.mem_append] at hc'
      rcases hc' with hc' | hc'
      · cases hx : st.X509CertificateList with
        | none => rw [hx] at hc'; cases hc'
        | some l₀ =>
            rw [hx] at hc'
            exact (hCert l₀ hx).2 c' hc'
      · rw [List.mem_singleton] at hc'
        subst hc'
        exact hop
  | addIssuerSerial n s =>
      simp only [goodOp, Bool.and_eq_true, decide_eq_true_eq] at hop
      refine ⟨fun l hl => ?_, hSki, hName, hCert, hCrl, hKey⟩
      rw [applyOp, KeyInfoX509Data.AddIssuerSerial] at hl
      simp only [Option.some.injEq] at hl
      subst hl
      refine ⟨by simp, fun p hp => ?_⟩
      rw [List.mem_append] at hp
      rcases hp with hp | hp
      · cases hx : st.IssuerSerialList with
        | none => rw [hx] at hp; cases hp
        | some l₀ =>
            rw [hx] at hp
            exact (hIser l₀ hx).2 p hp
      · rw [List.mem_singleton] at hp
        subst hp
        refine ⟨hop.1, hop.2, ?_⟩
        cases s with
        | none => exact absurd rfl hop.2
        | some t => rfl
  | addSubjectKeyId v =>
      cases v with
      | str s =>
          simp only [goodOp, decide_eq_true_eq] at hop
          exact ⟨hIser, Or.inr ⟨Convert.FromBase64 s, rfl, hop, fromBase64_valid s⟩,
            hName, hCert, hCrl, hKey⟩
      | bytes b =>
          simp only [goodOp, Bool.and_eq_true, decide_eq_true_eq] at hop
          exact ⟨hIser, Or.inr ⟨b, rfl, hop.1, hop.2⟩, hName, hCert, hCrl, hKey⟩
  | addSubjectName s =>
      simp only [goodOp, decide_eq_true_eq] at hop
      refine ⟨hIser, hSki, fun l hl => ?_, hCert, hCrl, hKey⟩
      rw [applyOp, KeyInfoX509Data.AddSubjectName] at hl
      simp only [Option.some.injEq] at hl
      subst hl
      refine ⟨by simp, fun s' hs' => ?_⟩
      rw [List.mem_append] at hs'
      rcases hs' with hs' | hs'
      · cases hx : st.SubjectNameList with
        | none => rw [hx] at hs'; cases hs'
        | some l₀ =>
            rw [hx] at hs'
            exact (hName l₀ hx).2 s' hs'
      · rw [List.mem_singleton] at hs'
        subst hs'
        exact hop
  | setCRL v =>
      refine ⟨hIser, hSki, hName, hCert, fun b hb => ?_, hKey⟩
      rw [applyOp, KeyInfoX509Data.setCRL] at hb
      cases v with
      | none => cases hb
      | some b' =>
          simp only [goodOp, Bool.and_eq_true, decide_eq_true_eq] at hop
          simp only [Option.some.injEq] at hb
          subst hb
          exact hop

theorem goodState_foldl :
    ∀ (ops : List X509Op) (st : KeyInfoX509Data), KeyInfoX509Data.GoodState st →
      (∀ op ∈ ops, goodOp op = true) → KeyInfoX509Data.GoodState (ops.foldl applyOp st)
  | [], _, h, _ => h
  | op :: ops', st, h, hops => by
      rw [List.foldl_cons]
      exact goodState_foldl ops' (applyOp st op)
        (goodState_applyOp h (hops op (by simp))) (fun q hq => hops q (by simp [hq]))

/-! ## Claim theorems -/

/-- C9: `AddCertificate` with an absent certificate and `AddIssuerSerial` with an
absent issuer name fail synchronously with `ParameterRequired`, and the check runs
before any mutation, so the failing call leaves every collection exactly as it was. -/
theorem C9_paramRequired_before_mutation (st : KeyInfoX509Data) (sn : Option String) :
    st.AddCertificate none = (.error (.paramRequired "certificate"), st) ∧
    st.AddIssuerSerial none sn = (.error (.paramRequired "issuerName"), st) :=
  ⟨rfl, rfl⟩

/-- C10: with a present issuer name and an absent serial number, `AddIssuerSerial`
succeeds and appends the pair with the absent serial number; the serial-number
argument is never validated. -/
theorem C10_serialNumber_unchecked (st : KeyInfoX509Data) (issuerName : String) :
    st.AddIssuerSerial (some issuerName) none =
      (.ok (), { st with
        IssuerSerialList := some (st.IssuerSerialList.getD [] ++ [⟨issuerName, none⟩]) }) :=
  rfl

/-- C2 (code bug): `AddSubjectKeyId` does normalize base64 text and raw bytes to the
same stored byte sequence — `"QUJD"` and the bytes of `"ABC"` both store
`[65, 66, 67]` — but the guard `if (this.SubjectKeyIdList) this.SubjectKeyIdList = [];`
is always true (the field always holds an array, and any array is truthy), so every
call erases the previously stored entries instead of preserving them: after a second
call only the last entry remains, and in general the collection never holds more than
the latest entry. -/
theorem C2_subjectKeyId_eval :
    (KeyInfoX509Data.fresh.AddSubjectKeyId (.str "QUJD")).SubjectKeyIdList =
        [[65, 66, 67]] ∧
    (KeyInfoX509Data.fresh.AddSubjectKeyId (.bytes [65, 66, 67])).SubjectKeyIdList =
        [[65, 66, 67]] ∧
    ((KeyInfoX509Data.fresh.AddSubjectKeyId (.str "QUJD")).AddSubjectKeyId
        (.bytes [68, 69, 70])).SubjectKeyIdList = [[68, 69, 70]] ∧
    ∀ (st : KeyInfoX509Data) (b : Bytes),
      (st.AddSubjectKeyId (.bytes b)).SubjectKeyIdList = [b] :=
  ⟨by decide, rfl, by decide, fun _ _ => rfl⟩

/-- C3 (counterexample): the claim says `verifySignature` encodes the signed-info
text with the same binary-safe one-byte-per-code-unit encoding `getSignature` uses;
on the text `"é"` (one code unit, `0xE9`) the bytes handed to the provider's verify
primitive are the two-byte UTF-8 sequence, not the one binary byte `getSignature`
hands to the sign primitive. -/
theorem C3_counterexample :
    (SignatureAlgorithm.verifySignature ⟨⟨"RSASSA-PKCS1-v1_5"⟩, "ns"⟩ "é" ⟨0⟩ "" none).data ≠
      (SignatureAlgorithm.getSignature ⟨⟨"RSASSA-PKCS1-v1_5"⟩, "ns"⟩ "é" ⟨0⟩
        ⟨"RSASSA-PKCS1-v1_5"⟩).data := by
  decide

/-- C3 (amended): `getSignature` encodes the signed-info text with the binary-safe
one-byte-per-code-unit encoding before invoking the provider's sign primitive;
`verifySignature` decodes the signature-value text with that binary-safe encoding but
encodes the signed-info text with UTF-8, and defaults to this algorithm's own
identifier when no explicit algorithm is given. -/
theorem C3_encodings (self : XmlAlgorithm) (signedInfo signatureValue : String)
    (key : CryptoKey) (alg : AlgId) (algOpt : Option AlgId) :
    SignatureAlgorithm.getSignature self signedInfo key alg =
      { algorithm := alg, key := key, data := Convert.FromStringBinary signedInfo } ∧
    SignatureAlgorithm.verifySignature self signedInfo key signatureValue algOpt =
      { algorithm := algOpt.getD self.algorithm, key := key
        signatureBytes := Convert.FromStringBinary signatureValue
        data := Convert.FromStringUtf8 signedInfo } ∧
    SignatureAlgorithm.verifySignature self signedInfo key signatureValue none =
      { algorithm := self.algorithm, key := key
        signatureBytes := Convert.FromStringBinary signatureValue
        data := Convert.FromStringUtf8 signedInfo } :=
  ⟨rfl, rfl, rfl⟩

/-- C8: `getHash` adapts each of its three input shapes to bytes — text is UTF-8
encoded, raw bytes pass through unchanged, a document node is serialized by the
external serializer and then UTF-8 encoded — and always invokes the provider's
digest primitive with this algorithm's own parameters; in particular the text
`<a/>` and the UTF-8 bytes of `<a/>` produce the identical digest invocation. -/
theorem C8_getHash_shapes (self : XmlAlgorithm) (serialize : XmlEl → String)
    (s : String) (b : Bytes) (n : XmlEl) :
    HashAlgorithm.getHash self serialize (.str s) =
      { algorithm := self.algorithm, data := Convert.FromStringUtf8 s } ∧
    HashAlgorithm.getHash self serialize (.bytes b) =
      { algorithm := self.algorithm, data := b } ∧
    HashAlgorithm.getHash self serialize (.node n) =
      { algorithm := self.algorithm, data := Convert.FromStringUtf8 (serialize n) } ∧
    HashAlgorithm.getHash self serialize (.str "<a/>") =
      HashAlgorithm.getHash self serialize (.bytes [60, 97, 47, 62]) :=
  ⟨rfl, rfl, rfl, by
    show HashAlgorithm.getHash self serialize (.str "<a/>") =
      { algorithm := self.algorithm, data := [60, 97, 47, 62] }
    have : Convert.FromStringUtf8 "<a/>" = [60, 97, 47, 62] := by decide
    simp [HashAlgorithm.getHash, this]⟩

/-- C4 (code bug): on a fresh instance the certificate list is still `undefined`,
so `this.Certificates.length` throws a `TypeError` inside the promise executor and
`exportKey` rejects rather than resolving; on an initialized-but-empty list the
executor completes without calling `resolve` or `reject`, so the promise never
settles — in neither empty case does it resolve as a no-op.  With at least one
certificate the settlement of the first certificate's export is passed through
unchanged. -/
theorem C4_exportKey_eval :
    (∀ (a : AlgId) (ce : X509Certificate → AlgId → Except JsErr CryptoKey),
      KeyInfoX509Data.fresh.exportKey a ce = some (.error .typeError)) ∧
    (∀ (a : AlgId) (ce : X509Certificate → AlgId → Except JsErr CryptoKey),
      (((KeyInfoX509Data.fresh.AddCertificate (some ⟨[1]⟩)).2.LoadXml
          (XmlEl.mk "X509Data" XmlSignature.NamespaceURI "" [])).toOption.getD
        KeyInfoX509Data.fresh).exportKey a ce = none) ∧
    (∀ (a : AlgId) (ce : X509Certificate → AlgId → Except JsErr CryptoKey),
      (KeyInfoX509Data.fresh.AddCertificate (some ⟨[1]⟩)).2.exportKey a ce =
        some (ce ⟨[1]⟩ a)) := by
  refine ⟨fun a ce => rfl, fun a ce => ?_, fun a ce => rfl⟩
  have hempties :
      (((KeyInfoX509Data.fresh.AddCertificate (some ⟨[1]⟩)).2.LoadXml
          (XmlEl.mk "X509Data" XmlSignature.NamespaceURI "" [])).toOption.getD
        KeyInfoX509Data.fresh).X509CertificateList = some [] := by decide
  show KeyInfoX509Data.exportKey _ a ce = none
  rw [KeyInfoX509Data.exportKey, hempties]

/-- C7: the children of the element `GetXml` builds come in the fixed group order
issuer/serial entries, then SKI entries, then subject names, then certificates, then
the CRL (the first conjunct lists the whole child sequence as exactly these five
name groups in order); each collection contributes exactly one child per entry, so
an empty collection contributes nothing and a fresh instance yields an element with
zero children; at most one `X509CRL` child is ever emitted, and setting the CRL
twice retains only the last value. -/
theorem C7_getXml_shape (st : KeyInfoX509Data) (v w : Option Bytes) :
    st.GetXml.children =
        GetChildren st.GetXml XmlSignature.ElementNames.X509IssuerSerial ++
        GetChildren st.GetXml XmlSignature.ElementNames.X509SKI ++
        GetChildren st.GetXml XmlSignature.ElementNames.X509SubjectName ++
        GetChildren st.GetXml XmlSignature.ElementNames.X509Certificate ++
        GetChildren st.GetXml XmlSignature.ElementNames.X509CRL ∧
    (GetChildren st.GetXml XmlSignature.ElementNames.X509IssuerSerial).length =
        (st.IssuerSerialList.getD []).length ∧
    (GetChildren st.GetXml XmlSignature.ElementNames.X509SKI).length =
        st.SubjectKeyIdList.length ∧
    (GetChildren st.GetXml XmlSignature.ElementNames.X509SubjectName).length =
        (st.SubjectNameList.getD []).length ∧
    (GetChildren st.GetXml XmlSignature.ElementNames.X509Certificate).length =
        (st.X509CertificateList.getD []).length ∧
    (GetChildren st.GetXml XmlSignature.ElementNames.X509CRL).length ≤ 1 ∧
    KeyInfoX509Data.fresh.GetXml.children = [] ∧
    ((st.setCRL v).setCRL w).CRL = w := by
  rw [KeyInfoX509Data.getChildren_getXml_iser, KeyInfoX509Data.getChildren_getXml_ski,
    KeyInfoX509Data.getChildren_getXml_subjectName, KeyInfoX509Data.getChildren_getXml_cert,
    KeyInfoX509Data.getChildren_getXml_crl]
  refine ⟨KeyInfoX509Data.getXml_children st, ?_, ?_, ?_, ?_, ?_, rfl, rfl⟩
  · simp [KeyInfoX509Data.iserEls]
  · simp [KeyInfoX509Data.skiEls]
  · simp [KeyInfoX509Data.subjectNameEls]
  · simp [KeyInfoX509Data.certEls]
  · cases hc : st.x509crl <;> simp [KeyInfoX509Data.crlEls, hc]

/-- C1 (counterexample): the round trip is not the identity on every populated
instance.  After `AddSubjectName("")` the instance holds the one-element subject-name
collection `[""]`, but the parse guard `if (xel.textContent)` treats the empty text
as absent, so reparsing the serialized element drops the entry and the reparsed
subject names differ from the original ones. -/
theorem C1_counterexample :
    (KeyInfoX509Data.fresh.LoadXml
        (KeyInfoX509Data.fresh.AddSubjectName "").GetXml).toOption.map
      KeyInfoX509Data.SubjectNames ≠
      some (KeyInfoX509Data.fresh.AddSubjectName "").SubjectNames := by
  decide

/-- C1 (amended): for every instance populated through `Add*` operations and the CRL
setter whose inputs survive the wire format — no empty subject names, no empty or
absent serial numbers, no empty issuer names, no empty byte arrays for the subject
key ids, certificates and CRL — serializing with `GetXml` and parsing the result
with `LoadXml` on a fresh instance reproduces the original state exactly:
certificates, issuer/serial pairs, subject key ids, subject names and the CRL are
field-for-field equal, each collection in the original insertion order. -/
theorem C1_round_trip (ops : List X509Op) (h : ∀ op ∈ ops, goodOp op = true) :
    KeyInfoX509Data.fresh.LoadXml (ops.foldl applyOp KeyInfoX509Data.fresh).GetXml =
      .ok (ops.foldl applyOp KeyInfoX509Data.fresh) :=
  KeyInfoX509Data.loadXml_getXml_of_goodState
    (goodState_foldl ops KeyInfoX509Data.fresh goodState_fresh h)

/-- Witness for C1: a concrete interleaved call sequence touching every collection
round-trips to the identical state. -/
theorem C1_round_trip_witness :
    (∀ op ∈ ([.addIssuerSerial "CN=A" (some "1"), .addSubjectKeyId (.str "QUJD"),
        .addSubjectName "CN=B", .addCertificate ⟨[1, 2, 3]⟩, .setCRL (some [10, 255]),
        .addIssuerSerial "CN=C" (some "2")] : List X509Op), goodOp op = true) ∧
    KeyInfoX509Data.fresh.LoadXml
        (([.addIssuerSerial "CN=A" (some "1"), .addSubjectKeyId (.str "QUJD"),
          .addSubjectName "CN=B", .addCertificate ⟨[1, 2, 3]⟩, .setCRL (some [10, 255]),
          .addIssuerSerial "CN=C" (some "2")] : List X509Op).foldl applyOp
          KeyInfoX509Data.fresh).GetXml =
      .ok (([.addIssuerSerial "CN=A" (some "1"), .addSubjectKeyId (.str "QUJD"),
          .addSubjectName "CN=B", .addCertificate ⟨[1, 2, 3]⟩, .setCRL (some [10, 255]),
          .addIssuerSerial "CN=C" (some "2")] : List X509Op).foldl applyOp
          KeyInfoX509Data.fresh) :=
  ⟨by decide,
    C1_round_trip [.addIssuerSerial "CN=A" (some "1"), .addSubjectKeyId (.str "QUJD"),
      .addSubjectName "CN=B", .addCertificate ⟨[1, 2, 3]⟩, .setCRL (some [10, 255]),
      .addIssuerSerial "CN=C" (some "2")] (by decide)⟩

/-- C6: parsing is permissive.  For any `<X509Data>` element: the parse always
returns normally, and every absent top-level child group — no `X509IssuerSerial`,
`X509SKI`, `X509SubjectName`, `X509Certificate` or `X509CRL` children — leaves the
corresponding collection empty (the CRL absent), never raising an error; and
whenever the element contains an `X509IssuerSerial` child group missing its
issuer-name or its serial-number child, the parse result is identical to the parse
of the element without that group: the malformed entry is skipped silently and
every entry before and after it is still processed. -/
theorem C6_permissive_parse (st : KeyInfoX509Data) (el : XmlEl)
    (hname : el.localName = XmlSignature.ElementNames.X509Data ∧
      el.namespaceURI = XmlSignature.NamespaceURI) :
    (∃ r, st.LoadXml el = .ok r ∧
      (GetChildren el XmlSignature.ElementNames.X509IssuerSerial = [] →
        r.IssuerSerialList.getD [] = []) ∧
      (GetChildren el XmlSignature.ElementNames.X509SKI = [] →
        r.SubjectKeyIdList = []) ∧
      (GetChildren el XmlSignature.ElementNames.X509SubjectName = [] →
        r.SubjectNameList.getD [] = []) ∧
      (GetChildren el XmlSignature.ElementNames.X509Certificate = [] →
        r.X509CertificateList.getD [] = []) ∧
      (GetChildren el XmlSignature.ElementNames.X509CRL = [] → r.x509crl = none)) ∧
    ∀ (pre post : List XmlEl) (bad : XmlEl),
      bad.localName = XmlSignature.ElementNames.X509IssuerSerial ∧
        bad.namespaceURI = XmlSignature.NamespaceURI →
      (GetChild bad XmlSignature.ElementNames.X509IssuerName = none ∨
        GetChild bad XmlSignature.ElementNames.X509SerialNumber = none) →
      el.children = pre ++ bad :: post →
      st.LoadXml el =
        st.LoadXml
          (XmlEl.mk el.localName el.namespaceURI el.textContent (pre ++ post)) := by
  obtain ⟨r, hr⟩ := KeyInfoX509Data.loadXml_ok st el hname
  obtain ⟨g1, g2, g3, g4, g5⟩ := KeyInfoX509Data.loadXml_absent_groups st el r hr
  exact ⟨⟨r, hr, g1, g2, g3, g4, g5⟩,
    fun pre post bad hbadname hbadmiss hch =>
      KeyInfoX509Data.loadXml_skips_malformed st el pre post bad hname hbadname
        hbadmiss hch⟩

/-- Witness for C6: an issuer/serial group missing its serial number, sitting
between a complete issuer/serial group and an SKI entry, is skipped while both of
its neighbours are parsed; and an element with no `X509IssuerSerial` children at
all parses successfully into an empty issuer/serial collection. -/
theorem C6_permissive_parse_witness :
    ((XmlEl.mk "X509Data" XmlSignature.NamespaceURI ""
        [XmlEl.mk "X509IssuerSerial" XmlSignature.NamespaceURI ""
          [XmlEl.mk "X509IssuerName" XmlSignature.NamespaceURI "CN=A" [],
            XmlEl.mk "X509SerialNumber" XmlSignature.NamespaceURI "1" []],
          XmlEl.mk "X509IssuerSerial" XmlSignature.NamespaceURI ""
            [XmlEl.mk "X509IssuerName" XmlSignature.NamespaceURI "CN=B" []],
          XmlEl.mk "X509SKI" XmlSignature.NamespaceURI "QUJD" []]).localName =
        XmlSignature.ElementNames.X509Data ∧
      (XmlEl.mk "X509Data" XmlSignature.NamespaceURI ""
        [XmlEl.mk "X509IssuerSerial" XmlSignature.NamespaceURI ""
          [XmlEl.mk "X509IssuerName" XmlSignature.NamespaceURI "CN=A" [],
            XmlEl.mk "X509SerialNumber" XmlSignature.NamespaceURI "1" []],
          XmlEl.mk "X509IssuerSerial" XmlSignature.NamespaceURI ""
            [XmlEl.mk "X509IssuerName" XmlSignature.NamespaceURI "CN=B" []],
          XmlEl.mk "X509SKI" XmlSignature.NamespaceURI "QUJD" []]).namespaceURI =
        XmlSignature.NamespaceURI) ∧
    KeyInfoX509Data.fresh.LoadXml
        (XmlEl.mk "X509Data" XmlSignature.NamespaceURI ""
          [XmlEl.mk "X509IssuerSerial" XmlSignature.NamespaceURI ""
            [XmlEl.mk "X509IssuerName" XmlSignature.NamespaceURI "CN=A" [],
              XmlEl.mk "X509SerialNumber" XmlSignature.NamespaceURI "1" []],
            XmlEl.mk "X509IssuerSerial" XmlSignature.NamespaceURI ""
              [XmlEl.mk "X509IssuerName" XmlSignature.NamespaceURI "CN=B" []],
            XmlEl.mk "X509SKI" XmlSignature.NamespaceURI "QUJD" []]) =
      KeyInfoX509Data.fresh.LoadXml
        (XmlEl.mk "X509Data" XmlSignature.NamespaceURI ""
          ([XmlEl.mk "X509IssuerSerial" XmlSignature.NamespaceURI ""
            [XmlEl.mk "X509IssuerName" XmlSignature.NamespaceURI "CN=A" [],
              XmlEl.mk "X509SerialNumber" XmlSignature.NamespaceURI "1" []]] ++
            [XmlEl.mk "X509SKI" XmlSignature.NamespaceURI "QUJD" []])) ∧
    ∃ r, KeyInfoX509Data.fresh.LoadXml
        (XmlEl.mk "X509Data" XmlSignature.NamespaceURI ""
          [XmlEl.mk "X509SKI" XmlSignature.NamespaceURI "QUJD" []]) = .ok r ∧
      r.IssuerSerialList.getD [] = [] := by
  refine ⟨by decide, ?_, ?_⟩
  · exact (C6_permissive_parse KeyInfoX509Data.fresh
      (XmlEl.mk "X509Data" XmlSignature.NamespaceURI ""
        [XmlEl.mk "X509IssuerSerial" XmlSignature.NamespaceURI ""
          [XmlEl.mk "X509IssuerName" XmlSignature.NamespaceURI "CN=A" [],
            XmlEl.mk "X509SerialNumber" XmlSignature.NamespaceURI "1" []],
          XmlEl.mk "X509IssuerSerial" XmlSignature.NamespaceURI ""
            [XmlEl.mk "X509IssuerName" XmlSignature.NamespaceURI "CN=B" []],
          XmlEl.mk "X509SKI" XmlSignature.NamespaceURI "QUJD" []]) (by decide)).2
      [XmlEl.mk "X509IssuerSerial" XmlSignature.NamespaceURI ""
        [XmlEl.mk "X509IssuerName" XmlSignature.NamespaceURI "CN=A" [],
          XmlEl.mk "X509SerialNumber" XmlSignature.NamespaceURI "1" []]]
      [XmlEl.mk "X509SKI" XmlSignature.NamespaceURI "QUJD" []]
      (XmlEl.mk "X509IssuerSerial" XmlSignature.NamespaceURI ""
        [XmlEl.mk "X509IssuerName" XmlSignature.NamespaceURI "CN=B" []])
      (by decide) (Or.inr rfl) rfl
  · obtain ⟨⟨r, hr, g1, -, -, -, -⟩, -⟩ := C6_permissive_parse KeyInfoX509Data.fresh
      (XmlEl.mk "X509Data" XmlSignature.NamespaceURI ""
        [XmlEl.mk "X509SKI" XmlSignature.NamespaceURI "QUJD" []]) (by decide)
    exact ⟨r, hr, g1 rfl⟩

/-- C5 (counterexample): the state `LoadXml` produces is not fully determined by
the parsed element.  Parsing the empty `<X509Data>` element into a fresh instance
leaves the subject-name list unallocated (`undefined`), while parsing the same
element into a previously populated instance leaves it an allocated empty array —
the reset guard `if (this.SubjectNameList)` skips unallocated lists — so the two
results are different states (observably: the `SubjectNames` getter returns
`undefined` in one and an empty array in the other). -/
theorem C5_counterexample :
    KeyInfoX509Data.fresh.LoadXml
        (XmlEl.mk "X509Data" XmlSignature.NamespaceURI "" []) ≠
      (KeyInfoX509Data.fresh.AddSubjectName "CN=A").LoadXml
        (XmlEl.mk "X509Data" XmlSignature.NamespaceURI "" []) := by
  decide

/-- C5 (amended): `LoadXml` discards the entire prior contents — it resets every
allocated collection and the CRL before repopulating, so the resulting collection
contents are fully determined by the parsed element: parsing the same element from
any two prior states yields view-equal results (same issuer/serial pairs, subject
key ids, subject names, certificates and CRL, an unallocated collection reading as
empty).  Only the representation of an empty collection (unallocated versus
allocated-empty) can still depend on the prior state. -/
theorem C5_parse_contents_determined (st₁ st₂ : KeyInfoX509Data) (el : XmlEl)
    (r₁ r₂ : KeyInfoX509Data) (h₁ : st₁.LoadXml el = .ok r₁)
    (h₂ : st₂.LoadXml el = .ok r₂) : KeyInfoX509Data.ViewEq r₁ r₂ := by
  obtain ⟨s1, s4, d1, d4, d5⟩ := KeyInfoX509Data.loadXml_dissect st₁ el r₁ h₁
  obtain ⟨t1, t4, g1, g4, g5⟩ := KeyInfoX509Data.loadXml_dissect st₂ el r₂ h₂
  obtain ⟨a1, b1, ha1, hb1, hab1⟩ := KeyInfoX509Data.iserFold_viewCongr
    (GetChildren el XmlSignature.ElementNames.X509IssuerSerial)
    (KeyInfoX509Data.resetLists_viewEq st₁ st₂)
  rw [KeyInfoX509Data.loadIssuerSerials] at d1 g1
  rw [d1] at ha1
  rw [g1] at hb1
  have hs1 : s1 = a1 := Except.ok.inj ha1
  have ht1 : t1 = b1 := Except.ok.inj hb1
  subst hs1
  subst ht1
  have hab3 : KeyInfoX509Data.ViewEq ((s1.loadSKIs el).loadSubjectNames el)
      ((t1.loadSKIs el).loadSubjectNames el) :=
    KeyInfoX509Data.nameFold_viewCongr
      (GetChildren el XmlSignature.ElementNames.X509SubjectName)
      (KeyInfoX509Data.skiFold_viewCongr
        (GetChildren el XmlSignature.ElementNames.X509SKI) hab1)
  obtain ⟨a4, b4, ha4, hb4, hab4⟩ := KeyInfoX509Data.certFold_viewCongr
    (GetChildren el XmlSignature.ElementNames.X509Certificate) hab3
  rw [KeyInfoX509Data.loadCertificates] at d4 g4
  rw [d4] at ha4
  rw [g4] at hb4
  have hs4 : s4 = a4 := Except.ok.inj ha4
  have ht4 : t4 = b4 := Except.ok.inj hb4
  subst hs4
  subst ht4
  have hab5 := KeyInfoX509Data.loadCRL_viewCongr hab4 el
  rw [d5, g5] at hab5
  exact hab5

/-- Witness for C5: the empty element parsed from a fresh instance and from a
populated one gives different raw states but view-equal collection contents. -/
theorem C5_parse_contents_determined_witness :
    KeyInfoX509Data.fresh.LoadXml
        (XmlEl.mk "X509Data" XmlSignature.NamespaceURI "" []) =
      .ok KeyInfoX509Data.fresh ∧
    (KeyInfoX509Data.fresh.AddSubjectName "CN=A").LoadXml
        (XmlEl.mk "X509Data" XmlSignature.NamespaceURI "" []) =
      .ok { KeyInfoX509Data.fresh with SubjectNameList := some [] } ∧
    KeyInfoX509Data.ViewEq KeyInfoX509Data.fresh
      { KeyInfoX509Data.fresh with SubjectNameList := some [] } :=
  ⟨by decide, by decide,
    C5_parse_contents_determined KeyInfoX509Data.fresh
      (KeyInfoX509Data.fresh.AddSubjectName "CN=A")
      (XmlEl.mk "X509Data" XmlSignature.NamespaceURI "" []) KeyInfoX509Data.fresh
      { KeyInfoX509Data.fresh with SubjectNameList := some [] } (by decide) (by decide)⟩

end XmlDsig
